import Mathlib

/-!
Verification development for the Konkan rules engine.

The definitions below are a shallow embedding of the Python sources
(`src/konkan/encoding.py`, `src/konkan/state.py`, `src/konkan/rules.py`).
Python integers become `Nat` (card masks are arbitrary-precision bitsets in
the source), mutable state becomes explicit state passing, and functions
that raise become `Except` values tagged with the exception class raised.

The repository's meld solver is the Rust extension `konkan_melds`, which is
not part of the Python sources; the pieces the rules engine consumes from it
(`enumerate_melds`, `best_cover_to_threshold`, and the mask helpers lost in
the unresolved merge of `encoding.py`) are modelled from the specification
and are marked as such in their doc comments.
-/

namespace Konkan

/-! ## Card encoding (`src/konkan/encoding.py`)

The merged `encoding.py` keeps two drafts.  The identifier codec used by the
rules engine (and by the specification, section 3) is the `HEAD` draft:
identifiers `[0, 104)` are standard cards with `copy = id / 52`,
`suit = (id mod 52) / 13`, `rank = id mod 13`; identifiers 104 and 105 are
the printed jokers.  The bitmask helpers (`card_bit`, `has_card`,
`add_card`, `remove_card`, `mask_from_cards`, `iter_cards`) come from the
`main` draft, which stores a hand as a single big-integer bitset. -/

def SET_KIND : Nat := 0

def RUN_KIND : Nat := 1

def JOKER_IDS : List Nat := [104, 105]

/-- `card_identifier in JOKER_IDS`. -/
def isJoker (cardId : Nat) : Bool := cardId == 104 || cardId == 105

/-- `POINTS = [10] + list(range(2, 10)) + [10, 10, 10]`. -/
def POINTS : List Nat := [10, 2, 3, 4, 5, 6, 7, 8, 9, 10, 10, 10, 10]

/-- Decoded card view (`encoding.CardDecoding`): jokers use `-1` sentinels. -/
structure CardDecoding where
  is_joker : Bool
  rank_idx : Int
  suit_idx : Int
  copy : Int
  deriving Repr, DecidableEq

/-- `encoding.decode_id`. -/
def decode_id (cardId : Nat) : CardDecoding :=
  if isJoker cardId then ⟨true, -1, -1, -1⟩
  else
    let copy : Nat := if cardId ≥ 52 then 1 else 0
    let base := cardId - copy * 52
    ⟨false, Int.ofNat (base % 13), Int.ofNat (base / 13), Int.ofNat copy⟩

/-- Rank index of a card as a `Nat` (jokers map to 0; every embedded call
site guards on `isJoker` first, mirroring the source which raises for
jokers). -/
def rankOf (cardId : Nat) : Int := (decode_id cardId).rank_idx

def suitOf (cardId : Nat) : Int := (decode_id cardId).suit_idx

/-- Point value of a rank index (`POINTS[rank_idx]`). -/
def pointsOfRank (rank : Int) : Nat := POINTS.getD rank.toNat 0

/-- `encoding.card_points` for non-joker identifiers.  The source raises
`ValueError` when called on a joker without a represented rank; the embedded
rules engine only calls it on non-jokers. -/
def card_points (cardId : Nat) : Nat := pointsOfRank (rankOf cardId)

/-- `encoding.card_bit` (main draft): `1 << card_id`. -/
def card_bit (cardId : Nat) : Nat := 1 <<< cardId

/-- `encoding.has_card`. -/
def has_card (mask cardId : Nat) : Bool := mask &&& card_bit cardId != 0

/-- `encoding.add_card`. -/
def add_card (mask cardId : Nat) : Nat := mask ||| card_bit cardId

/-- `encoding.remove_card`: `mask & ~card_bit(card_id)`; on `Nat` the
complement-free form `mask - (mask &&& bit)` is the same function. -/
def remove_card (mask cardId : Nat) : Nat := mask - (mask &&& card_bit cardId)

/-- `encoding.mask_from_cards`. -/
def mask_from_cards (cards : List Nat) : Nat :=
  cards.foldl (fun mask cardId => mask ||| card_bit cardId) 0

/-- Modelled from the spec: `encoding.split_mask` is lost in the unresolved
merge of `encoding.py`; per the data model a card set is "a 128-bit mask,
conventionally split as (hi 64, lo 64)". -/
def split_mask (mask : Nat) : Nat × Nat := (mask >>> 64, mask &&& (2 ^ 64 - 1))

/-- Modelled from the spec: `encoding.cards_from_mask` is lost in the
unresolved merge; it lists the identifiers of a mask in ascending order,
exactly as the surviving `iter_cards` helper does.  The spec fixes a card
set as "a 128-bit mask", so the model reads bits `0..127`. -/
def cards_from_mask (mask : Nat) : List Nat :=
  (List.range 128).filter (fun i => mask.testBit i)

/-- Modelled from the spec: `encoding.points_from_mask` is lost in the
unresolved merge; per the spec jokers score 0 intrinsically and every other
card scores its rank points (this matches the surviving `points_for_mask`
helper of the main draft). -/
def points_from_mask (mask : Nat) : Nat :=
  ((cards_from_mask mask).map
    (fun cardId => if isJoker cardId then 0 else card_points cardId)).sum

/-- `rules._hand_points`: deadwood points of a hand, jokers skipped. -/
def hand_points (handMask : Nat) : Nat :=
  ((cards_from_mask handMask).map
    (fun cardId => if isJoker cardId then 0 else card_points cardId)).sum

/-! ## Meld solver (spec-modelled)

The solver is the Rust extension `konkan_melds`, absent from the Python
sources (`melds.py` only re-exports it, with a stub fallback).  The
definitions below are modelled from the specification: section 3's meld
definitions, section 4.2's solver contract, and testable property 3. -/

/-- Boolean pairwise-distinctness of a list (used for "all in distinct
suits" and for the distinct ranks of a run). -/
def allDistinct (l : List Int) : Bool := decide l.Nodup

/-- Modelled from the spec: a legal set is "≥3 cards of the same rank, all
in distinct suits; may include at most one joker substituting for a missing
suit" (hence at most four cards in total). -/
def isLegalSet (cards : List Nat) : Bool :=
  let base := cards.filter (fun c => !isJoker c)
  let jokers := cards.filter (fun c => isJoker c)
  3 ≤ cards.length && cards.length ≤ 4 && jokers.length ≤ 1 &&
    (match base with
     | [] => false
     | b :: rest => rest.all (fun c => rankOf c == rankOf b)) &&
    allDistinct (base.map suitOf)

/-- Modelled from the spec: rank window check for a run starting at `lo`:
all non-joker ranks are pairwise distinct and lie inside
`[lo, lo + length)`, with the (at most one) joker filling the remaining
position. -/
def runWindowAt (cards : List Nat) (lo : Nat) : Bool :=
  let base := cards.filter (fun c => !isJoker c)
  lo + cards.length ≤ 13 && allDistinct (base.map rankOf) &&
    base.all (fun c => Int.ofNat lo ≤ rankOf c && rankOf c < Int.ofNat (lo + cards.length))

/-- Modelled from the spec: the first (lowest) window start making the card
list a run, if any. -/
def runWindowLo (cards : List Nat) : Option Nat :=
  (List.range 13).find? (fun lo => runWindowAt cards lo)

/-- Modelled from the spec: a legal run is "≥3 consecutive ranks of one
suit", "at most one joker per run; Ace is low only" (the window must fit
inside ranks `A..K` without wrapping). -/
def isLegalRun (cards : List Nat) : Bool :=
  let base := cards.filter (fun c => !isJoker c)
  let jokers := cards.filter (fun c => isJoker c)
  3 ≤ cards.length && jokers.length ≤ 1 &&
    (match base with
     | [] => false
     | b :: rest => rest.all (fun c => suitOf c == suitOf b)) &&
    (runWindowLo cards).isSome

/-- Modelled from the spec: meld legality by kind (`SET_KIND = 0`,
`RUN_KIND = 1`, as in `rules.py`). -/
def isLegalMeldList (kind : Nat) (cards : List Nat) : Bool :=
  if kind == SET_KIND then isLegalSet cards else isLegalRun cards

/-- Modelled from the spec: a meld's point total is "the sum of represented
rank points of all cards including jokers' represented ranks": for a set
every card (joker included) scores the common rank; for a run the window
positions are summed. -/
def meldPointsList (kind : Nat) (cards : List Nat) : Nat :=
  if kind == SET_KIND then
    match (cards.filter (fun c => !isJoker c)) with
    | [] => 0
    | b :: _ => cards.length * pointsOfRank (rankOf b)
  else
    match runWindowLo cards with
    | some lo => ((List.range cards.length).map (fun k => pointsOfRank (Int.ofNat (lo + k)))).sum
    | none => 0

/-- Shape of the native meld objects the rules engine reads back from the
solver (`mask_hi`, `mask_lo`, `kind`, `points` attributes). -/
structure NativeMeld where
  mask_hi : Nat
  mask_lo : Nat
  kind : Nat
  points : Nat
  used_jokers : Nat
  deriving Repr, DecidableEq

/-- Combined 128-bit mask of a native meld. -/
def NativeMeld.mask (m : NativeMeld) : Nat := (m.mask_hi <<< 64) ||| m.mask_lo

/-- Build a native meld from a card list. -/
def nativeMeldOf (kind : Nat) (cards : List Nat) : NativeMeld :=
  let mask := mask_from_cards cards
  { mask_hi := (split_mask mask).1
    mask_lo := (split_mask mask).2
    kind := kind
    points := meldPointsList kind cards
    used_jokers := (cards.filter (fun c => isJoker c)).length }

/-- Modelled from the spec: `konkan_melds.enumerate_melds` returns the legal
melds whose card-set is a subset of the mask.  The model enumerates every
legal meld (the Rust solver prunes to maximal-per-shape candidates, which
only drops dominated covers and never changes any exact-mask membership
query). -/
def enumerate_melds (mask_hi mask_lo : Nat) : List NativeMeld :=
  let cards := cards_from_mask ((mask_hi <<< 64) ||| mask_lo)
  cards.sublists.filterMap (fun sub =>
    if isLegalSet sub then some (nativeMeldOf SET_KIND sub)
    else if isLegalRun sub then some (nativeMeldOf RUN_KIND sub)
    else none)

/-- Two native melds are card-disjoint. -/
def meldDisjoint (a b : NativeMeld) : Bool := a.mask &&& b.mask == 0

/-- All selections of mutually card-disjoint melds from the candidate
list. -/
def allCovers : List NativeMeld → List (List NativeMeld)
  | [] => [[]]
  | m :: rest =>
      let tail := allCovers rest
      tail ++ tail.filterMap (fun cover =>
        if cover.all (fun other => meldDisjoint m other) then some (m :: cover) else none)

/-- Total points of a cover. -/
def coverPoints (cover : List NativeMeld) : Nat := (cover.map (·.points)).sum

/-- Total covered cards of a cover. -/
def coverCards (cover : List NativeMeld) : Nat :=
  (cover.map (fun m => (cards_from_mask m.mask).length)).sum

/-- Total jokers used by a cover. -/
def coverJokers (cover : List NativeMeld) : Nat := (cover.map (·.used_jokers)).sum

/-- Cover `a` strictly beats cover `b` under the `MIN_DEADWOOD_AT_THRESHOLD`
tie-breaking order: more covered cards (fewer deadwood), then more points,
then fewer jokers. -/
def coverBetter (a b : List NativeMeld) : Bool :=
  coverCards b < coverCards a ||
    (coverCards a == coverCards b &&
      (coverPoints b < coverPoints a ||
        (coverPoints a == coverPoints b && coverJokers a < coverJokers b)))

/-- Result shape of the solver (`melds.CoverResultProtocol`). -/
structure CoverResult where
  melds : List NativeMeld
  covered_cards : Nat
  total_points : Nat
  used_jokers : Nat
  deriving Repr, DecidableEq

/-- Modelled from the spec: `melds.best_cover_to_threshold` /
`konkan_melds.best_cover(·, ·, OBJ_MIN_DEADWOOD, threshold)`.  Among covers
whose total meld points reach the threshold it minimises deadwood with the
fixed tie-breaking order; when no cover reaches the threshold the solver
"never throws" and the caller "must treat the result as cannot come down",
so the model returns the empty cover (total points 0), matching the stub
fallback in `melds.py`. -/
def best_cover_to_threshold (mask_hi mask_lo threshold : Nat) : CoverResult :=
  let feasible :=
    (allCovers (enumerate_melds mask_hi mask_lo)).filter
      (fun cover => threshold ≤ coverPoints cover)
  match feasible with
  | [] => { melds := [], covered_cards := 0, total_points := 0, used_jokers := 0 }
  | first :: rest =>
      let best := rest.foldl (fun acc cover => if coverBetter cover acc then cover else acc) first
      { melds := best
        covered_cards := coverCards best
        total_points := coverPoints best
        used_jokers := coverJokers best }

/-! ## Game state (`src/konkan/state.py`) -/

/-- `state.TurnPhase`. -/
inductive TurnPhase where
  | awaiting_draw
  | awaiting_trash
  | complete
  deriving Repr, DecidableEq

/-- `rules.TurnPhase` (the coarse phase stored on `KonkanState.phase`). -/
inductive RulesPhase where
  | draw
  | play
  | discard
  deriving Repr, DecidableEq

/-- `state.KonkanConfig`. -/
structure KonkanConfig where
  num_players : Nat
  hand_size : Nat := 14
  come_down_points : Nat := 81
  allow_trash_first_turn : Bool := false
  dealer_index : Nat := 0
  first_player_hand_size : Option Nat := none
  deriving Repr, DecidableEq

/-- `state.PlayerState`. -/
structure PlayerState where
  hand_mask : Nat := 0
  laid_mask : Nat := 0
  laid_points : Nat := 0
  has_come_down : Bool := false
  phase : TurnPhase := TurnPhase.awaiting_draw
  last_action_was_trash : Bool := false
  deriving Repr, DecidableEq

/-- `state.PlayerState.copy`. -/
def PlayerState.copy (p : PlayerState) : PlayerState :=
  { hand_mask := p.hand_mask
    laid_mask := p.laid_mask
    laid_points := p.laid_points
    has_come_down := p.has_come_down
    phase := p.phase
    last_action_was_trash := p.last_action_was_trash }

/-- `state.PublicState`. -/
structure PublicState where
  draw_pile : List Nat
  trash_pile : List Nat
  turn_index : Nat
  dealer_index : Nat
  current_player_index : Nat := 0
  winner_index : Option Nat := none
  highest_table_points : Nat := 0
  last_trash_by : Option Nat := none
  deriving Repr, DecidableEq

/-- `state.PublicState.copy`. -/
def PublicState.copy (p : PublicState) : PublicState :=
  { draw_pile := p.draw_pile
    trash_pile := p.trash_pile
    turn_index := p.turn_index
    dealer_index := p.dealer_index
    current_player_index := p.current_player_index
    winner_index := p.winner_index
    highest_table_points := p.highest_table_points
    last_trash_by := p.last_trash_by }

/-- `state.MeldOnTable`. -/
structure MeldOnTable where
  mask_hi : Nat
  mask_lo : Nat
  cards : List Nat
  owner : Nat
  kind : Nat
  has_joker : Bool
  points : Nat
  is_four_set : Bool
  deriving Repr, DecidableEq

/-- `state.PlayerPublic`. -/
structure PlayerPublic where
  came_down : Bool
  table_points : Nat
  deriving Repr, DecidableEq

/-- `state.KonkanState`.  The numpy `deck` array and per-player `hands`
arrays are modelled as `List Nat`. -/
structure KonkanState where
  player_to_act : Nat := 0
  turn_index : Nat := 0
  deck : List Nat := []
  deck_top : Nat := 0
  trash : List Nat := []
  hands : List (List Nat) := []
  table : List MeldOnTable := []
  public : PublicState := { draw_pile := [], trash_pile := [], turn_index := 0, dealer_index := 0 }
  highest_table_points : Nat := 0
  first_player_has_discarded : Bool := false
  phase : RulesPhase := RulesPhase.draw
  config : Option KonkanConfig := none
  players : List PlayerState := []
  deriving Repr, DecidableEq

/-- `state.KonkanState.clone_shallow`: rebuilds the public state, every
player record, every table meld and every mutable collection. -/
def KonkanState.clone_shallow (s : KonkanState) : KonkanState :=
  { player_to_act := s.player_to_act
    turn_index := s.turn_index
    deck := s.deck
    deck_top := s.deck_top
    trash := s.trash
    hands := s.hands
    table := s.table.map (fun m =>
      { mask_hi := m.mask_hi
        mask_lo := m.mask_lo
        cards := m.cards
        owner := m.owner
        kind := m.kind
        has_joker := m.has_joker
        points := m.points
        is_four_set := m.is_four_set })
    public := s.public.copy
    highest_table_points := s.highest_table_points
    first_player_has_discarded := s.first_player_has_discarded
    phase := s.phase
    config := s.config
    players := s.players.map PlayerState.copy }

/-- `state.deal_new_game`: deal hands by popping from the end of the deck
order.  Dealing to one player pops `desired` cards. -/
def dealHand (drawPile : List Nat) (desired : Nat) (handMask : Nat) :
    Option (List Nat × Nat) :=
  match desired with
  | 0 => some (drawPile, handMask)
  | d + 1 =>
      match drawPile.getLast? with
      | none => none
      | some cardId => dealHand (drawPile.dropLast) d (add_card handMask cardId)

/-- `state.deal_new_game` over the player list. -/
def dealHands (drawPile : List Nat) (cfg : KonkanConfig) (firstPlayer : Nat) :
    Nat → Option (List Nat × List PlayerState)
  | 0 => some (drawPile, [])
  | n + 1 =>
      let idx := cfg.num_players - (n + 1)
      let desired :=
        if idx == firstPlayer then
          match cfg.first_player_hand_size with
          | some v => v
          | none => cfg.hand_size
        else cfg.hand_size
      match dealHand drawPile desired 0 with
      | none => none
      | some (rest, mask) =>
          match dealHands rest cfg firstPlayer n with
          | none => none
          | some (rest2, players) => some (rest2, { hand_mask := mask } :: players)

/-- `state.deal_new_game`: returns `none` where the source raises
`ValueError` for an exhausted deck. -/
def deal_new_game (cfg : KonkanConfig) (deckCards : List Nat) : Option KonkanState :=
  let firstPlayer := if cfg.num_players != 0 then (cfg.dealer_index + 1) % cfg.num_players else 0
  match dealHands deckCards cfg firstPlayer cfg.num_players with
  | none => none
  | some (drawPile, players) =>
      some
        { player_to_act := firstPlayer
          turn_index := 0
          deck := []
          deck_top := 0
          trash := []
          hands := []
          table := []
          public :=
            { draw_pile := drawPile
              trash_pile := []
              turn_index := 0
              dealer_index := cfg.dealer_index
              current_player_index := firstPlayer }
          highest_table_points := 0
          first_player_has_discarded := false
          phase := RulesPhase.draw
          config := some cfg
          players := players }

/-! ## Rules engine (`src/konkan/rules.py`) -/

/-- Decidable equality of `Except` results, used to evaluate the embedded
rule functions on concrete states. -/
instance instDecEqExcept {e : Type} {a : Type} [DecidableEq e] [DecidableEq a] :
    DecidableEq (Except e a) := fun x y =>
  match x, y with
  | .ok v, .ok w =>
      if h : v = w then isTrue (h ▸ rfl) else isFalse (fun hc => h (Except.ok.inj hc))
  | .error v, .error w =>
      if h : v = w then isTrue (h ▸ rfl) else isFalse (fun hc => h (Except.error.inj hc))
  | .ok _, .error _ => isFalse (fun hc => Except.noConfusion hc)
  | .error _, .ok _ => isFalse (fun hc => Except.noConfusion hc)

/-- Exception classes raised by the rules engine. -/
inductive KError where
  | valueError (msg : String)
  | runtimeError (msg : String)
  | illegalDraw (msg : String)
  | illegalTrash (msg : String)
  deriving Repr, DecidableEq

/-- `rules.Thresholds`. -/
structure Thresholds where
  base : Nat := 81
  deriving Repr, DecidableEq

/-- `rules.Thresholds.next_for`. -/
def Thresholds.next_for (t : Thresholds) (highest_table_points : Nat) : Nat :=
  if highest_table_points ≤ 0 then t.base else highest_table_points + 1

def DEFAULT_THRESHOLDS : Thresholds := {}

/-- `rules.someone_is_down`. -/
def someone_is_down (pub : List PlayerPublic) : Bool :=
  pub.any (fun player => player.came_down)

/-- `rules.effective_threshold`. -/
def effective_threshold (pub : List PlayerPublic) (highest_table_points : Nat)
    (thresholds : Thresholds := DEFAULT_THRESHOLDS) : Nat :=
  if someone_is_down pub then thresholds.next_for highest_table_points else thresholds.base

/-- `rules._resolve_runtime_components`.  The `isinstance(public, PublicState)`
check cannot fail in the embedding, where `public` is always a
`PublicState`. -/
def resolveComponents (s : KonkanState) :
    Except KError (KonkanConfig × List PlayerState × PublicState) :=
  match s.config with
  | none => .error (.valueError "KonkanState is missing configuration; use deal_new_game")
  | some cfg =>
      if s.players.isEmpty then .error (.valueError "KonkanState is missing player data")
      else if cfg.num_players != s.players.length then
        .error (.valueError "configuration player count does not match player state list")
      else .ok (cfg, s.players, s.public)

/-- The inline effective-threshold computation repeated inside
`can_draw_from_trash`, `can_player_come_down` and `lay_down`:
`threshold = config.come_down_points; if highest > 0: threshold =
max(threshold, highest + 1)`. -/
def inlineThreshold (cfg : KonkanConfig) (pub : PublicState) : Nat :=
  if 0 < pub.highest_table_points then
    max cfg.come_down_points (pub.highest_table_points + 1)
  else cfg.come_down_points

def defaultPlayer : PlayerState := {}

def defaultMeld : MeldOnTable :=
  { mask_hi := 0, mask_lo := 0, cards := [], owner := 0, kind := 0
    has_joker := false, points := 0, is_four_set := false }

/-- `rules.can_player_come_down`. -/
def can_player_come_down (s : KonkanState) (playerIndex : Nat) : Bool :=
  match resolveComponents s with
  | .error _ => false
  | .ok (cfg, players, pub) =>
      if players.length ≤ playerIndex then false
      else
        let player := players.getD playerIndex defaultPlayer
        if player.has_come_down then false
        else
          let threshold := inlineThreshold cfg pub
          let cover := best_cover_to_threshold (split_mask player.hand_mask).1
            (split_mask player.hand_mask).2 threshold
          if threshold ≤ cover.total_points then true
          else threshold ≤ points_from_mask player.hand_mask

/-- `rules.LayDownResult`. -/
structure LayDownResult where
  used_mask : Nat
  deadwood_mask : Nat
  deriving Repr, DecidableEq

/-- `mask & ~other` on natural-number bitsets. -/
def maskDiff (mask other : Nat) : Nat := mask - (mask &&& other)

/-- `rules._create_table_meld`. -/
def create_table_meld (owner mask_hi mask_lo kind points : Nat) : MeldOnTable :=
  let cards := cards_from_mask ((mask_hi <<< 64) ||| mask_lo)
  let hasJoker := cards.any (fun c => isJoker c)
  { mask_hi := mask_hi
    mask_lo := mask_lo
    cards := cards
    owner := owner
    kind := kind
    has_joker := hasJoker
    points := points
    is_four_set := kind == SET_KIND && cards.length == 4 && !hasJoker }

/-- `rules.lay_down`. -/
def lay_down (s : KonkanState) (playerIndex : Nat) :
    Except KError (KonkanState × LayDownResult) :=
  match resolveComponents s with
  | .error _ => .error (.runtimeError "cannot lay down without initialised table state")
  | .ok (cfg, players, pub) =>
      if !can_player_come_down s playerIndex then
        .error (.runtimeError "player does not meet the coming-down threshold")
      else
        let player := players.getD playerIndex defaultPlayer
        let threshold := inlineThreshold cfg pub
        let cover := best_cover_to_threshold (split_mask player.hand_mask).1
          (split_mask player.hand_mask).2 threshold
        let coverOk := threshold ≤ cover.total_points
        let usedFromCover := cover.melds.foldl
          (fun acc meld => acc ||| ((meld.mask_hi <<< 64) ||| meld.mask_lo)) 0
        let fallbackPoints := points_from_mask player.hand_mask
        if !coverOk && fallbackPoints < threshold then
          .error (.runtimeError "player does not meet the coming-down threshold")
        else
          let used_mask := if coverOk then usedFromCover else player.hand_mask
          let total_points := if coverOk then cover.total_points else fallbackPoints
          let deadwood_mask := maskDiff player.hand_mask used_mask
          let tableEntries :=
            if threshold ≤ total_points && !cover.melds.isEmpty then
              cover.melds.map (fun m =>
                create_table_meld playerIndex m.mask_hi m.mask_lo m.kind m.points)
            else if used_mask != 0 then
              [create_table_meld playerIndex (split_mask used_mask).1
                (split_mask used_mask).2 RUN_KIND (points_from_mask used_mask)]
            else []
          let laidMask := player.laid_mask ||| used_mask
          let laidPointsTotal :=
            if threshold ≤ total_points && !cover.melds.isEmpty then total_points
            else points_from_mask laidMask
          let player2 :=
            { player with
                has_come_down := true
                laid_mask := laidMask
                hand_mask := deadwood_mask
                laid_points := laidPointsTotal }
          let pub2 :=
            { pub with highest_table_points := max pub.highest_table_points laidPointsTotal }
          .ok
            ({ s with
                players := players.set playerIndex player2
                table := s.table ++ tableEntries
                public := pub2 },
              { used_mask := used_mask, deadwood_mask := deadwood_mask })

/-- `rules.draw_from_stock`. -/
def draw_from_stock (s : KonkanState) (playerIndex : Nat) :
    Except KError (KonkanState × Nat) :=
  match resolveComponents s with
  | .error e => .error e
  | .ok (_, players, pub) =>
      if players.length ≤ playerIndex then .error (.illegalDraw "invalid player index")
      else if pub.winner_index != none then .error (.illegalDraw "round already finished")
      else if pub.current_player_index != playerIndex then
        .error (.illegalDraw "not this player's turn")
      else
        let player := players.getD playerIndex defaultPlayer
        if player.phase != TurnPhase.awaiting_draw then
          .error (.illegalDraw "player must be awaiting a draw")
        else
          match pub.draw_pile.getLast? with
          | none => .error (.illegalDraw "draw pile is empty")
          | some cardId =>
              let player2 :=
                { player with
                    hand_mask := add_card player.hand_mask cardId
                    phase := TurnPhase.awaiting_trash
                    last_action_was_trash := false }
              .ok
                ({ s with
                    players := players.set playerIndex player2
                    public := { pub with draw_pile := pub.draw_pile.dropLast } },
                  cardId)

/-- `rules.trash_card`. -/
def trash_card (s : KonkanState) (playerIndex cardId : Nat) :
    Except KError KonkanState :=
  match resolveComponents s with
  | .error e => .error e
  | .ok (cfg, players, pub) =>
      if players.length ≤ playerIndex then .error (.illegalTrash "invalid player index")
      else if pub.winner_index != none then .error (.illegalTrash "round already finished")
      else if pub.current_player_index != playerIndex then
        .error (.illegalTrash "not this player's turn to trash")
      else
        let player := players.getD playerIndex defaultPlayer
        if player.phase != TurnPhase.awaiting_trash then
          .error (.illegalTrash "player must draw before trashing")
        else if !has_card player.hand_mask cardId then
          .error (.illegalTrash "card not present in hand")
        else
          let newHand := remove_card player.hand_mask cardId
          let wins := newHand == 0 && player.has_come_down
          let player2 :=
            { player with
                hand_mask := newHand
                last_action_was_trash := true
                phase := if wins then TurnPhase.complete else TurnPhase.awaiting_draw }
          let nextPlayer :=
            if 0 < cfg.num_players then (playerIndex + 1) % cfg.num_players else playerIndex
          let pub2 :=
            { pub with
                trash_pile := pub.trash_pile ++ [cardId]
                winner_index := if wins then some playerIndex else pub.winner_index
                last_trash_by := some playerIndex
                turn_index := pub.turn_index + 1
                current_player_index := nextPlayer }
          .ok
            { s with
                players := players.set playerIndex player2
                public := pub2
                player_to_act := nextPlayer
                turn_index := pub2.turn_index }

/-- `rules._validate_meld`: asks the solver for the melds of the candidate
card set and accepts when some candidate has exactly that mask and the
expected kind. -/
def validate_meld (cards : List Nat) (expectedKind : Nat) : Bool :=
  let mask := mask_from_cards cards
  (enumerate_melds (split_mask mask).1 (split_mask mask).2).any
    (fun cand => cand.mask == mask && cand.kind == expectedKind)

/-- `rules._assign_meld_cards` as a pure update of the meld record. -/
def assign_meld_cards (meld : MeldOnTable) (cards : List Nat) : MeldOnTable :=
  let mask := mask_from_cards cards
  let hasJoker := cards.any (fun c => isJoker c)
  let points :=
    if cards.isEmpty then 0
    else if meld.kind == SET_KIND then
      match cards.find? (fun c => !isJoker c) with
      | some b => cards.length * pointsOfRank (rankOf b)
      | none => cards.length * 0
    else
      let fromSolver :=
        match (enumerate_melds (split_mask mask).1 (split_mask mask).2).find?
            (fun cand => cand.mask == mask) with
        | some cand => cand.points
        | none => 0
      if fromSolver == 0 then points_from_mask mask else fromSolver
  { meld with
      cards := cards
      mask_hi := (split_mask mask).1
      mask_lo := (split_mask mask).2
      has_joker := hasJoker
      points := points
      is_four_set := meld.kind == SET_KIND && cards.length == 4 && !hasJoker }

/-- The joker-swap scan of `rules.sarf_card`: walk the meld's card list
looking for the first joker whose replacement by `c` validates; return the
replaced card list and the displaced joker.  `i` is the position of the
head of `rest` within `cards`. -/
def findSwapGo (cards : List Nat) (kind c : Nat) : Nat → List Nat → Option (List Nat × Nat)
  | _, [] => none
  | i, tableCard :: rest =>
      if isJoker tableCard && validate_meld (cards.set i c) kind then
        some (cards.set i c, tableCard)
      else findSwapGo cards kind c (i + 1) rest

def findSwap (cards : List Nat) (kind c : Nat) : Option (List Nat × Nat) :=
  findSwapGo cards kind c 0 cards

/-- The set/run pre-checks of `rules.sarf_card` (rank identity and fresh
suit for sets; suit identity for runs), returning the first error raised. -/
def sarfPrecheckError (meld : MeldOnTable) (c : Nat) : Option KError :=
  let decoded := decode_id c
  if meld.kind == SET_KIND then
    if decoded.is_joker then some (.runtimeError "cannot sarf joker into set")
    else
      let base := meld.cards.filter (fun card => !isJoker card)
      if !base.isEmpty && !((base.map rankOf).contains decoded.rank_idx) then
        some (.runtimeError "rank mismatch for set")
      else if (base.map suitOf).contains decoded.suit_idx then
        some (.runtimeError "duplicate suit not allowed in set")
      else none
  else
    let base := meld.cards.filter (fun card => !isJoker card)
    if !base.isEmpty && !((base.map suitOf).contains decoded.suit_idx) then
      some (.runtimeError "suit mismatch for run")
    else none

/-- The state update shared by the two success paths of `rules.sarf_card`:
remove `c` from the hand (and return the displaced joker to it on a swap),
reassign the meld's cards, and credit `c` to the laid mask and laid points
when it is not already credited. -/
def sarfApply (s : KonkanState) (p m c : Nat) (player : PlayerState)
    (meld : MeldOnTable) (candidate : List Nat) (returned : Option Nat) :
    KonkanState :=
  let hand1 := remove_card player.hand_mask c
  let hand2 := match returned with
    | some tableCard => add_card hand1 tableCard
    | none => hand1
  let player2 := { player with hand_mask := hand2 }
  let meld2 := assign_meld_cards meld candidate
  let player3 :=
    if !has_card player2.laid_mask c then
      { player2 with
          laid_mask := add_card player2.laid_mask c
          laid_points := player2.laid_points + card_points c }
    else player2
  { s with players := s.players.set p player3, table := s.table.set m meld2 }

/-- `rules.sarf_card`. -/
def sarf_card (s : KonkanState) (p m c : Nat) : Except KError KonkanState :=
  match resolveComponents s with
  | .error e => .error e
  | .ok (_, players, pub) =>
      if pub.winner_index != none then .error (.runtimeError "round already finished")
      else if players.length ≤ p then .error (.runtimeError "invalid player index")
      else if s.table.length ≤ m then .error (.runtimeError "invalid meld index")
      else
        let player := players.getD p defaultPlayer
        if !player.has_come_down then
          .error (.runtimeError "player must come down before sarfing")
        else if !has_card player.hand_mask c then
          .error (.runtimeError "card not present in hand")
        else
          let meld := s.table.getD m defaultMeld
          if meld.is_four_set then .error (.runtimeError "cannot modify sealed set")
          else
            match sarfPrecheckError meld c with
            | some e => .error e
            | none =>
                if (decode_id c).is_joker then
                  .error (.runtimeError "cannot sarf joker without swap target")
                else if meld.cards.any (fun card => isJoker card) then
                  match findSwap meld.cards meld.kind c with
                  | some (candidate, tableCard) =>
                      .ok (sarfApply s p m c player meld candidate (some tableCard))
                  | none =>
                      let candidate := meld.cards ++ [c]
                      if !validate_meld candidate meld.kind then
                        .error (.runtimeError "card does not extend meld")
                      else .ok (sarfApply s p m c player meld candidate none)
                else
                  let candidate := meld.cards ++ [c]
                  if !validate_meld candidate meld.kind then
                    .error (.runtimeError "card does not extend meld")
                  else .ok (sarfApply s p m c player meld candidate none)

/-- `rules.can_sarf_card`: tries `sarf_card` on a shallow clone, returning
`False` on `RuntimeError`; a `ValueError` from the component resolution
would propagate to the caller. -/
def can_sarf_card (s : KonkanState) (p m c : Nat) : Except KError Bool :=
  match sarf_card s.clone_shallow p m c with
  | .ok _ => .ok true
  | .error (.runtimeError _) => .ok false
  | .error e => .error e

/-- `rules.final_scores` result rows (`rules.PlayerRoundScore`). -/
structure PlayerRoundScore where
  player_index : Nat
  laid_points : Nat
  deadwood_points : Nat
  net_points : Int
  won_round : Bool
  deriving Repr, DecidableEq

/-- `rules.final_scores`. -/
def final_scores (s : KonkanState) : Except KError (List PlayerRoundScore) :=
  match s.public.winner_index with
  | none => .error (.valueError "winner has not been determined")
  | some winner =>
      .ok ((List.range s.players.length).map (fun idx =>
        let player := s.players.getD idx defaultPlayer
        { player_index := idx
          laid_points := player.laid_points
          deadwood_points := hand_points player.hand_mask
          net_points := (player.laid_points : Int) - (hand_points player.hand_mask : Int)
          won_round := idx == winner }))

end Konkan


namespace Konkan

/-! ## Bitmask lemmas -/

theorem testBit_card_bit (c i : Nat) : (card_bit c).testBit i = decide (c = i) := by
  have h : card_bit c = 2 ^ c := by
    simp [card_bit, Nat.shiftLeft_eq]
  rw [h, Nat.testBit_two_pow]

theorem testBit_foldl_or (l : List Nat) (acc i : Nat) :
    (l.foldl (fun mask cardId => mask ||| card_bit cardId) acc).testBit i
      = (acc.testBit i || decide (i ∈ l)) := by
  induction l generalizing acc with
  | nil => simp
  | cons a t ih =>
      simp only [List.foldl_cons, ih, Nat.testBit_lor, testBit_card_bit, List.mem_cons]
      by_cases ha : a = i <;> by_cases ht : i ∈ t <;> simp [ha, ht]
      · intro h
        exact absurd h.symm ha

theorem testBit_mask_from_cards (l : List Nat) (i : Nat) :
    (mask_from_cards l).testBit i = decide (i ∈ l) := by
  simpa using testBit_foldl_or l 0 i

theorem mem_cards_from_mask {M i : Nat} :
    i ∈ cards_from_mask M ↔ M.testBit i = true ∧ i < 128 := by
  simp [cards_from_mask, List.mem_filter, List.mem_range, and_comm]

theorem nodup_cards_from_mask (M : Nat) : (cards_from_mask M).Nodup :=
  (List.nodup_range 128).filter _

theorem cards_from_mask_sublist_range (M : Nat) :
    List.Sublist (cards_from_mask M) (List.range 128) :=
  List.filter_sublist _

theorem combine_split (M : Nat) :
    ((split_mask M).1 <<< 64) ||| (split_mask M).2 = M := by
  apply Nat.eq_of_testBit_eq
  intro i
  simp only [split_mask, Nat.testBit_lor, Nat.testBit_shiftLeft, Nat.testBit_shiftRight,
    Nat.testBit_land, Nat.testBit_two_pow_sub_one]
  by_cases h : 64 ≤ i
  · have : 64 + (i - 64) = i := by omega
    simp [h, this, Nat.not_lt.mpr h]
  · simp [h, Nat.lt_of_not_le h]

theorem filter_mem_of_sublist {l r : List Nat} (hr : r.Nodup)
    (h : List.Sublist l r) : r.filter (fun i => decide (i ∈ l)) = l := by
  induction h with
  | slnil => simp
  | cons a h ih =>
      rename_i l' r'
      have hr' : r'.Nodup := (List.nodup_cons.mp hr).2
      have ha : a ∉ r' := (List.nodup_cons.mp hr).1
      have hal : a ∉ l' := fun hmem => ha (h.subset hmem)
      simpa [List.filter_cons, hal] using ih hr'
  | cons₂ a h ih =>
      rename_i l' r'
      have hr' : r'.Nodup := (List.nodup_cons.mp hr).2
      have ha : a ∉ r' := (List.nodup_cons.mp hr).1
      have step : r'.filter (fun i => decide (i ∈ a :: l'))
          = r'.filter (fun i => decide (i ∈ l')) := by
        apply List.filter_congr
        intro x hx
        have hxa : x ≠ a := fun hxa => ha (hxa ▸ hx)
        simp [List.mem_cons, hxa]
      have hhead : List.filter (fun i => decide (i ∈ a :: l')) (a :: r')
          = a :: List.filter (fun i => decide (i ∈ a :: l')) r' := by
        simp [List.filter_cons]
      rw [hhead, step, ih hr']

theorem cards_from_mask_of_sublist_range {l : List Nat}
    (h : List.Sublist l (List.range 128)) :
    cards_from_mask (mask_from_cards l) = l := by
  have : cards_from_mask (mask_from_cards l)
      = (List.range 128).filter (fun i => decide (i ∈ l)) := by
    apply List.filter_congr
    intro x _
    simp [testBit_mask_from_cards]
  rw [this]
  exact filter_mem_of_sublist (List.nodup_range 128) h

theorem foldl_or_lt {t : List Nat} (h : ∀ x ∈ t, x < 128) :
    ∀ acc, acc < 2 ^ 128 →
      (t.foldl (fun mask cardId => mask ||| card_bit cardId) acc) < 2 ^ 128 := by
  induction t with
  | nil => intro acc hacc; simpa using hacc
  | cons a t ih =>
      intro acc hacc
      simp only [List.foldl_cons]
      apply ih (fun x hx => h x (List.mem_cons_of_mem _ hx))
      have hbit : card_bit a < 2 ^ 128 := by
        have ha : (2 : Nat) ^ a < 2 ^ 128 :=
          Nat.pow_lt_pow_right (by decide) (h a (List.mem_cons_self _ _))
        simpa [card_bit, Nat.shiftLeft_eq] using ha
      exact Nat.or_lt_two_pow hacc hbit

theorem mask_from_cards_lt {l : List Nat} (h : ∀ x ∈ l, x < 128) :
    mask_from_cards l < 2 ^ 128 :=
  foldl_or_lt h 0 (Nat.two_pow_pos 128)

theorem mask_from_cards_cards_from_mask {M : Nat} (h : M < 2 ^ 128) :
    mask_from_cards (cards_from_mask M) = M := by
  apply Nat.eq_of_testBit_eq
  intro i
  rw [testBit_mask_from_cards]
  by_cases hi : i < 128
  · by_cases hb : M.testBit i = true
    · simp [mem_cards_from_mask, hb, hi]
    · simp only [Bool.not_eq_true] at hb
      simp [mem_cards_from_mask, hb, hi]
  · have hhigh : M.testBit i = false :=
      Nat.testBit_eq_false_of_lt
        (lt_of_lt_of_le h (Nat.pow_le_pow_right (by decide) (Nat.le_of_not_lt hi)))
    simp [mem_cards_from_mask, hi, hhigh]

theorem maskFromCanonOfBounded {cards : List Nat} (hb : ∀ x ∈ cards, x < 128) :
    mask_from_cards (cards_from_mask (mask_from_cards cards)) = mask_from_cards cards :=
  mask_from_cards_cards_from_mask (mask_from_cards_lt hb)

/-! ## Solver lemmas -/

theorem nativeMeldOf_mask (kind : Nat) (sub : List Nat) :
    (nativeMeldOf kind sub).mask = mask_from_cards sub := by
  simp [nativeMeldOf, NativeMeld.mask, combine_split]

theorem nativeMeldOf_kind (kind : Nat) (sub : List Nat) :
    (nativeMeldOf kind sub).kind = kind := rfl

theorem mem_enumerate_melds {mhi mlo : Nat} {nm : NativeMeld} :
    nm ∈ enumerate_melds mhi mlo ↔
      ∃ sub, List.Sublist sub (cards_from_mask ((mhi <<< 64) ||| mlo)) ∧
        ((isLegalSet sub = true ∧ nm = nativeMeldOf SET_KIND sub) ∨
          (isLegalSet sub = false ∧ isLegalRun sub = true ∧ nm = nativeMeldOf RUN_KIND sub)) := by
  simp only [enumerate_melds, List.mem_filterMap, List.mem_sublists]
  constructor
  · rintro ⟨sub, hsub, hf⟩
    refine ⟨sub, hsub, ?_⟩
    by_cases hset : isLegalSet sub = true
    · left
      refine ⟨hset, ?_⟩
      simp only [hset, if_true] at hf
      exact (Option.some_inj.mp hf).symm
    · right
      simp only [Bool.not_eq_true] at hset
      simp only [hset, Bool.false_eq_true, if_false] at hf
      by_cases hrun : isLegalRun sub = true
      · refine ⟨hset, hrun, ?_⟩
        simp only [hrun, if_true] at hf
        exact (Option.some_inj.mp hf).symm
      · simp only [Bool.not_eq_true] at hrun
        simp [hrun] at hf
  · rintro ⟨sub, hsub, hcase⟩
    refine ⟨sub, hsub, ?_⟩
    rcases hcase with ⟨hset, rfl⟩ | ⟨hset, hrun, rfl⟩
    · simp [hset]
    · simp [hset, hrun]

/-- Any meld the solver enumerates covers only cards of the queried mask. -/
theorem enumerate_melds_mask_subset {mhi mlo : Nat} {nm : NativeMeld}
    (h : nm ∈ enumerate_melds mhi mlo) :
    ∀ i, nm.mask.testBit i = true → ((mhi <<< 64) ||| mlo).testBit i = true := by
  rcases mem_enumerate_melds.mp h with ⟨sub, hsub, hcase⟩
  have hm : nm.mask = mask_from_cards sub := by
    rcases hcase with ⟨_, rfl⟩ | ⟨_, _, rfl⟩ <;> exact nativeMeldOf_mask _ _
  intro i hbit
  rw [hm, testBit_mask_from_cards] at hbit
  have hi : i ∈ sub := of_decide_eq_true hbit
  exact (mem_cards_from_mask.mp (hsub.subset hi)).1

/-- The characterisation of `rules._validate_meld` under the spec-modelled
solver: the candidate cards validate for `kind` exactly when their card set
is a legal meld whose solver tag is `kind`. -/
theorem validate_meld_true_iff {cards : List Nat} {kind : Nat}
    (hb : ∀ x ∈ cards, x < 128) :
    validate_meld cards kind = true ↔
      ((isLegalSet (cards_from_mask (mask_from_cards cards)) = true ∧ kind = SET_KIND) ∨
        (isLegalSet (cards_from_mask (mask_from_cards cards)) = false ∧
          isLegalRun (cards_from_mask (mask_from_cards cards)) = true ∧ kind = RUN_KIND)) := by
  simp only [validate_meld, List.any_eq_true, Bool.and_eq_true, beq_iff_eq]
  constructor
  · rintro ⟨nm, hmem, hmask, hkind⟩
    rcases mem_enumerate_melds.mp hmem with ⟨sub, hsub, hcase⟩
    rw [combine_split] at hsub
    have hsubeq : sub = cards_from_mask (mask_from_cards cards) := by
      have hm : nm.mask = mask_from_cards sub := by
        rcases hcase with ⟨_, rfl⟩ | ⟨_, _, rfl⟩ <;> exact nativeMeldOf_mask _ _
      have : mask_from_cards sub = mask_from_cards cards := by rw [← hm, hmask]
      calc sub = cards_from_mask (mask_from_cards sub) :=
            (cards_from_mask_of_sublist_range
              (hsub.trans (cards_from_mask_sublist_range _))).symm
        _ = cards_from_mask (mask_from_cards cards) := by rw [this]
    rcases hcase with ⟨hset, rfl⟩ | ⟨hset, hrun, rfl⟩
    · exact Or.inl ⟨hsubeq ▸ hset, by rw [← hkind]; rfl⟩
    · exact Or.inr ⟨hsubeq ▸ hset, hsubeq ▸ hrun, by rw [← hkind]; rfl⟩
  · intro hcase
    rcases hcase with ⟨hset, rfl⟩ | ⟨hset, hrun, rfl⟩
    · refine ⟨nativeMeldOf SET_KIND (cards_from_mask (mask_from_cards cards)),
        mem_enumerate_melds.mpr ⟨_, by rw [combine_split], Or.inl ⟨hset, rfl⟩⟩,
        ?_, rfl⟩
      rw [nativeMeldOf_mask]
      exact maskFromCanonOfBounded hb
    · refine ⟨nativeMeldOf RUN_KIND (cards_from_mask (mask_from_cards cards)),
        mem_enumerate_melds.mpr ⟨_, by rw [combine_split],
          Or.inr ⟨hset, hrun, rfl⟩⟩,
        ?_, rfl⟩
      rw [nativeMeldOf_mask]
      exact maskFromCanonOfBounded hb

end Konkan

namespace Konkan

/-! ## Claim C1 -/

/-- Claim C1 counterexample: with one player down and a highest-laid value
of 5, `effective_threshold` returns `5 + 1 = 6`, not
`max(come_down_points, 5 + 1) = 81` as the claim states. -/
theorem C1_effective_threshold_counterexample :
    effective_threshold [{ came_down := true, table_points := 0 }] 5 DEFAULT_THRESHOLDS
      ≠ max DEFAULT_THRESHOLDS.base (5 + 1) := by
  decide

/-- Claim C1 (amended): the effective come-down threshold equals
`come_down_points` when no player has come down; once at least one player
has come down it equals `come_down_points` when the highest-laid value is 0
and `highest + 1` otherwise — which agrees with
`max(come_down_points, highest + 1)` exactly when
`come_down_points ≤ highest + 1`. -/
theorem C1_effective_threshold :
    ∀ (pub : List PlayerPublic) (highest : Nat) (t : Thresholds),
      (someone_is_down pub = false → effective_threshold pub highest t = t.base) ∧
      (someone_is_down pub = true → highest = 0 → effective_threshold pub highest t = t.base) ∧
      (someone_is_down pub = true → 0 < highest →
        effective_threshold pub highest t = highest + 1) ∧
      (someone_is_down pub = true → 0 < highest → t.base ≤ highest + 1 →
        effective_threshold pub highest t = max t.base (highest + 1)) := by
  intro pub highest t
  unfold effective_threshold Thresholds.next_for
  refine ⟨fun hno => by simp [hno], fun hyes h0 => by simp [hyes, h0],
    fun hyes hpos => ?_, fun hyes hpos hle => ?_⟩
  · simp [hyes, Nat.not_le.mpr hpos]
  · simp [hyes, Nat.not_le.mpr hpos, Nat.max_eq_right hle]

/-- Witness for the amended claim C1 at a concrete input. -/
theorem C1_effective_threshold_witness :
    someone_is_down [{ came_down := true, table_points := 90 }] = true ∧ (0 : Nat) < 90 ∧
      DEFAULT_THRESHOLDS.base ≤ 90 + 1 ∧
      effective_threshold [{ came_down := true, table_points := 90 }] 90 DEFAULT_THRESHOLDS
        = max DEFAULT_THRESHOLDS.base (90 + 1) :=
  ⟨by decide, by decide, by decide,
    (C1_effective_threshold [{ came_down := true, table_points := 90 }] 90
      DEFAULT_THRESHOLDS).2.2.2 (by decide) (by decide) (by decide)⟩

/-! ## Claim C5 -/

/-- A reachable configuration: current player 0 awaits a draw, the draw
pile is empty, and the discard pile holds a card. -/
def emptyStockState : KonkanState :=
  { config := some { num_players := 2, hand_size := 1 }
    players := [{ hand_mask := card_bit 5, phase := TurnPhase.awaiting_draw }, {}]
    public :=
      { draw_pile := []
        trash_pile := [3]
        turn_index := 4
        dealer_index := 0
        current_player_index := 0 } }

/-- Claim C5: the claim (and the spec, and the repository's own
`test_recycle_draw_pile_when_empty`) require the exhausted draw pile to be
recycled from the discard pile with its top retained; the merged
`rules.draw_from_stock` instead raises `IllegalDraw("draw pile is empty")`
and no recycling code exists in `rules.py` or `state.py`. -/
theorem C5_draw_from_stock_no_recycle :
    emptyStockState.public.draw_pile = [] ∧
      emptyStockState.public.trash_pile ≠ [] ∧
      (emptyStockState.players.getD 0 defaultPlayer).phase = TurnPhase.awaiting_draw ∧
      emptyStockState.public.current_player_index = 0 ∧
      draw_from_stock emptyStockState 0 = .error (.illegalDraw "draw pile is empty") := by
  refine ⟨rfl, by decide, rfl, rfl, ?_⟩
  decide

end Konkan

namespace Konkan

/-! ## Clone lemmas and claims C8, C10 -/

theorem map_self {A : Type} (l : List A) (f : A → A) (h : ∀ x, f x = x) :
    l.map f = l := by
  induction l with
  | nil => rfl
  | cons a t ih => simp [h, ih]

theorem PlayerState.player_copy_eq (p : PlayerState) : p.copy = p := by
  cases p
  rfl

theorem PublicState.public_copy_eq (p : PublicState) : p.copy = p := by
  cases p
  rfl

/-- `clone_shallow` rebuilds a structurally equal state. -/
theorem clone_shallow_eq (s : KonkanState) : s.clone_shallow = s := by
  unfold KonkanState.clone_shallow
  rw [PublicState.public_copy_eq, map_self s.players PlayerState.copy PlayerState.player_copy_eq,
    map_self s.table _ (fun m => by cases m; rfl)]

/-- Claim C10: `can_sarf_card` works on a shallow clone (structurally equal
to the input, which the pure embedding therefore leaves untouched) and
returns `True` exactly when `sarf_card` on that clone succeeds; a
`RuntimeError` is converted to `False`. -/
theorem C10_can_sarf_card (s : KonkanState) (p m c : Nat) :
    s.clone_shallow = s ∧
      (can_sarf_card s p m c = .ok true ↔
        ∃ s2, sarf_card s.clone_shallow p m c = .ok s2) := by
  refine ⟨clone_shallow_eq s, ?_⟩
  unfold can_sarf_card
  cases h : sarf_card s.clone_shallow p m c with
  | ok v => simp
  | error e =>
      cases e with
      | runtimeError msg => simp
      | valueError msg => simp
      | illegalDraw msg => simp
      | illegalTrash msg => simp

/-- A finished round: player 0 has gone out and is recorded as winner. -/
def scoredState : KonkanState :=
  { config := some { num_players := 2, hand_size := 1 }
    players :=
      [{ hand_mask := 0, laid_points := 90, has_come_down := true,
         phase := TurnPhase.complete },
       { hand_mask := mask_from_cards [7, 104], laid_points := 0 }]
    public :=
      { draw_pile := []
        trash_pile := [5]
        turn_index := 9
        dealer_index := 0
        current_player_index := 1
        winner_index := some 0 } }

/-- Claim C8: `final_scores` fails exactly when no winner is set; otherwise
it reports, for every player, the recorded laid points, deadwood equal to
the rank-point sum of the remaining hand with jokers counted as zero, the
net as their difference, and the win flag exactly for the winner. -/
theorem C8_final_scores (s : KonkanState) :
    ((∃ e, final_scores s = .error e) ↔ s.public.winner_index = none) ∧
      (∀ w, s.public.winner_index = some w →
        ∃ scores, final_scores s = .ok scores ∧
          scores.length = s.players.length ∧
          ∀ i, i < s.players.length →
            scores.getD i ⟨0, 0, 0, 0, false⟩ =
              { player_index := i
                laid_points := (s.players.getD i defaultPlayer).laid_points
                deadwood_points := hand_points (s.players.getD i defaultPlayer).hand_mask
                net_points :=
                  ((s.players.getD i defaultPlayer).laid_points : Int)
                    - (hand_points (s.players.getD i defaultPlayer).hand_mask : Int)
                won_round := i == w }) := by
  constructor
  · constructor
    · rintro ⟨e, he⟩
      unfold final_scores at he
      cases hw : s.public.winner_index with
      | none => rfl
      | some w => simp [hw] at he
    · intro hw
      exact ⟨.valueError "winner has not been determined", by unfold final_scores; rw [hw]⟩
  · intro w hw
    refine ⟨_, by unfold final_scores; rw [hw], by simp, ?_⟩
    intro i hi
    have hlen : i < ((List.range s.players.length).map (fun idx =>
        let player := s.players.getD idx defaultPlayer
        ({ player_index := idx
           laid_points := player.laid_points
           deadwood_points := hand_points player.hand_mask
           net_points := (player.laid_points : Int) - (hand_points player.hand_mask : Int)
           won_round := idx == w } : PlayerRoundScore))).length := by
      simpa using hi
    rw [List.getD_eq_getElem _ _ hlen]
    simp [hi]

/-- Witness for claim C8 at a concrete finished round. -/
theorem C8_final_scores_witness :
    scoredState.public.winner_index = some 0 ∧
      ∃ scores, final_scores scoredState = .ok scores ∧
        scores.length = scoredState.players.length ∧
        ∀ i, i < scoredState.players.length →
          scores.getD i ⟨0, 0, 0, 0, false⟩ =
            { player_index := i
              laid_points := (scoredState.players.getD i defaultPlayer).laid_points
              deadwood_points := hand_points (scoredState.players.getD i defaultPlayer).hand_mask
              net_points :=
                ((scoredState.players.getD i defaultPlayer).laid_points : Int)
                  - (hand_points (scoredState.players.getD i defaultPlayer).hand_mask : Int)
              won_round := i == 0 } :=
  ⟨rfl, (C8_final_scores scoredState).2 0 rfl⟩

end Konkan

namespace Konkan

/-! ## Component-resolution and list-update helpers -/

theorem resolve_ok {s : KonkanState} {cfg : KonkanConfig}
    (hcfg : s.config = some cfg) (hne : s.players ≠ [])
    (hn : cfg.num_players = s.players.length) :
    resolveComponents s = .ok (cfg, s.players, s.public) := by
  unfold resolveComponents
  rw [hcfg]
  simp [List.isEmpty_iff, hne, hn]

theorem getD_set_self {A : Type} (l : List A) (i : Nat) (v d : A)
    (h : i < l.length) : (l.set i v).getD i d = v := by
  rw [List.getD_eq_getElem _ _ (by simpa using h)]
  simp [List.getElem_set_self]

/-! ## Claim C4 -/

/-- Claim C4: for a current player in the discard phase holding `c` (in a
live round), `trash_card` appends `c` to the top of the discard pile,
records the player as last discarder, removes `c` from the hand; if the
hand is then empty and the player has come down the player is recorded as
winner and marked complete, otherwise the player returns to awaiting-draw
and the winner stays unset; the turn passes to the next player. -/
theorem C4_trash_card (s : KonkanState) (p c : Nat) (cfg : KonkanConfig)
    (hcfg : s.config = some cfg)
    (hne : s.players ≠ [])
    (hn : cfg.num_players = s.players.length)
    (hw : s.public.winner_index = none)
    (hcur : s.public.current_player_index = p)
    (hp : p < s.players.length)
    (hphase : (s.players.getD p defaultPlayer).phase = TurnPhase.awaiting_trash)
    (hhand : has_card (s.players.getD p defaultPlayer).hand_mask c = true) :
    ∃ s2, trash_card s p c = .ok s2 ∧
      s2.public.trash_pile = s.public.trash_pile ++ [c] ∧
      s2.public.last_trash_by = some p ∧
      (s2.players.getD p defaultPlayer).hand_mask
        = remove_card (s.players.getD p defaultPlayer).hand_mask c ∧
      (remove_card (s.players.getD p defaultPlayer).hand_mask c = 0 ∧
          (s.players.getD p defaultPlayer).has_come_down = true →
        s2.public.winner_index = some p ∧
          (s2.players.getD p defaultPlayer).phase = TurnPhase.complete) ∧
      (¬(remove_card (s.players.getD p defaultPlayer).hand_mask c = 0 ∧
          (s.players.getD p defaultPlayer).has_come_down = true) →
        s2.public.winner_index = none ∧
          (s2.players.getD p defaultPlayer).phase = TurnPhase.awaiting_draw) ∧
      s2.public.current_player_index = (p + 1) % cfg.num_players := by
  have hres := resolve_ok hcfg hne hn
  have hlen : ¬ s.players.length ≤ p := Nat.not_le.mpr hp
  have hpos : 0 < cfg.num_players := by omega
  unfold trash_card
  rw [hres]
  simp only [hlen, if_false, hw, hcur, hphase, hhand, bne_self_eq_false,
    Bool.false_eq_true, Bool.not_true, beq_self_eq_true, reduceIte]
  set pl := s.players.getD p defaultPlayer with hpl
  have hset : ∀ (v : PlayerState), (s.players.set p v).getD p defaultPlayer = v := by
    intro v
    exact getD_set_self _ _ _ _ hp
  refine ⟨_, rfl, ?_⟩
  refine ⟨rfl, rfl, ?_, ?_, ?_, ?_⟩
  · rw [hset]
  · intro hwin
    have hcond : ((remove_card pl.hand_mask c == 0) && pl.has_come_down) = true := by
      simp only [hwin.1, hwin.2, beq_self_eq_true, Bool.and_self]
    rw [hset]
    constructor
    · simp only [hcond, reduceIte]
    · simp only [hcond, reduceIte]
  · intro hnwin
    have hcond : ((remove_card pl.hand_mask c == 0) && pl.has_come_down) = false := by
      rcases Bool.eq_false_or_eq_true (remove_card pl.hand_mask c == 0) with hz | hz
      · have h0 : remove_card pl.hand_mask c = 0 := by simpa using hz
        rcases Bool.eq_false_or_eq_true pl.has_come_down with hd | hd
        · exact absurd ⟨h0, hd⟩ hnwin
        · simp [hd]
      · simp [hz]
    rw [hset]
    constructor
    · simp only [hcond, Bool.false_eq_true, reduceIte]
    · simp only [hcond, Bool.false_eq_true, reduceIte]
  · simp only [hpos, reduceIte]

end Konkan

namespace Konkan

/-- A live round where player 0, who has come down, is about to discard
their final card. -/
def lastDiscardState : KonkanState :=
  { config := some { num_players := 2, hand_size := 1 }
    players :=
      [{ hand_mask := card_bit 5, has_come_down := true,
         phase := TurnPhase.awaiting_trash }, {}]
    public :=
      { draw_pile := [9]
        trash_pile := [3]
        turn_index := 2
        dealer_index := 1
        current_player_index := 0 } }

/-- Witness for claim C4: discarding the final card after coming down wins
the round (spec scenario S4). -/
theorem C4_trash_card_witness :
    ∃ s2, trash_card lastDiscardState 0 5 = .ok s2 ∧
      s2.public.trash_pile = [3, 5] ∧
      s2.public.winner_index = some 0 ∧
      (s2.players.getD 0 defaultPlayer).phase = TurnPhase.complete ∧
      s2.public.current_player_index = 1 := by
  obtain ⟨s2, hok, hpile, hlast, hhand, hwin, hnwin, hcur⟩ :=
    C4_trash_card lastDiscardState 0 5 { num_players := 2, hand_size := 1 }
      rfl (by decide) rfl rfl rfl (by decide) (by decide) (by decide)
  have hw := hwin (by decide)
  exact ⟨s2, hok, by simpa using hpile, hw.1, hw.2, hcur.trans (by decide)⟩

end Konkan

namespace Konkan

/-! ## Cover-selection lemmas -/

theorem resolve_ok_inv {s : KonkanState} {val : KonkanConfig × List PlayerState × PublicState}
    (h : resolveComponents s = .ok val) :
    s.config = some val.1 ∧ val.2.1 = s.players ∧ val.2.2 = s.public ∧
      s.players ≠ [] ∧ val.1.num_players = s.players.length := by
  unfold resolveComponents at h
  cases hc : s.config with
  | none => rw [hc] at h; cases h
  | some cfg =>
      rw [hc] at h
      by_cases h1 : s.players.isEmpty
      · simp [h1] at h
      · simp only [h1, Bool.false_eq_true, if_false] at h
        by_cases h2 : cfg.num_players = s.players.length
        · simp only [h2, bne_self_eq_false, Bool.false_eq_true, if_false] at h
          cases h
          exact ⟨by simpa using hc, rfl, rfl, by simpa [List.isEmpty_iff] using h1,
            by simpa using h2⟩
        · simp [bne_iff_ne, h2] at h

theorem mem_of_mem_allCovers {l : List NativeMeld} {x : NativeMeld} :
    ∀ {cover}, cover ∈ allCovers l → x ∈ cover → x ∈ l := by
  induction l with
  | nil =>
      intro cover hc hx
      simp only [allCovers, List.mem_singleton] at hc
      subst hc
      cases hx
  | cons m rest ih =>
      intro cover hc hx
      simp only [allCovers, List.mem_append, List.mem_filterMap] at hc
      rcases hc with hc | ⟨tail_cover, htail, hf⟩
      · exact List.mem_cons_of_mem _ (ih hc hx)
      · by_cases hd : tail_cover.all (fun other => meldDisjoint m other)
        · simp only [hd, if_true] at hf
          cases hf
          cases hx with
          | head => exact List.mem_cons_self _ _
          | tail b hx => exact List.mem_cons_of_mem _ (ih htail hx)
        · simp [hd] at hf

theorem foldl_pick_mem (rest : List (List NativeMeld)) :
    ∀ first, rest.foldl (fun acc cover => if coverBetter cover acc then cover else acc) first
      ∈ first :: rest := by
  induction rest with
  | nil => intro first; simp
  | cons a t ih =>
      intro first
      simp only [List.foldl_cons]
      rcases List.mem_cons.mp (ih (if coverBetter a first then a else first)) with h1 | h1
      · rw [h1]
        by_cases h : coverBetter a first <;> simp [h]
      · exact List.mem_cons_of_mem _ (List.mem_cons_of_mem _ h1)

/-- The melds reported by `best_cover_to_threshold` all come from
`enumerate_melds`. -/
theorem best_cover_melds_mem {mhi mlo t : Nat} {nm : NativeMeld}
    (h : nm ∈ (best_cover_to_threshold mhi mlo t).melds) :
    nm ∈ enumerate_melds mhi mlo := by
  unfold best_cover_to_threshold at h
  set feasible := (allCovers (enumerate_melds mhi mlo)).filter
    (fun cover => t ≤ coverPoints cover) with hfeas
  cases hmatch : feasible with
  | nil => rw [hmatch] at h; cases h
  | cons first rest =>
      rw [hmatch] at h
      simp only at h
      have hmem : rest.foldl (fun acc cover => if coverBetter cover acc then cover else acc) first
          ∈ feasible := by
        rw [hmatch]
        exact foldl_pick_mem rest first
      have hcov : rest.foldl (fun acc cover => if coverBetter cover acc then cover else acc) first
          ∈ allCovers (enumerate_melds mhi mlo) := (List.mem_filter.mp (hfeas ▸ hmem)).1
      exact mem_of_mem_allCovers hcov h

/-- The threshold-feasible branch reports the points of its chosen melds. -/
theorem best_cover_total_eq {mhi mlo t : Nat} :
    (best_cover_to_threshold mhi mlo t).total_points
      = coverPoints (best_cover_to_threshold mhi mlo t).melds := by
  unfold best_cover_to_threshold
  set feasible := (allCovers (enumerate_melds mhi mlo)).filter
    (fun cover => t ≤ coverPoints cover)
  cases feasible with
  | nil => rfl
  | cons first rest => rfl

theorem testBit_foldl_or_meldmask (melds : List NativeMeld) (acc i : Nat) :
    (melds.foldl (fun a m => a ||| ((m.mask_hi <<< 64) ||| m.mask_lo)) acc).testBit i
      = (acc.testBit i || melds.any (fun m => m.mask.testBit i)) := by
  induction melds generalizing acc with
  | nil => simp
  | cons m rest ih =>
      simp only [List.foldl_cons, ih, List.any_cons]
      have hX : (m.mask_hi <<< 64 ||| m.mask_lo) = m.mask := rfl
      rw [hX, Nat.testBit_lor, Bool.or_assoc]

end Konkan

namespace Konkan

/-- The solver cover that `can_player_come_down` and `lay_down` consult for
a player, at the inline effective threshold. -/
def playerCover (s : KonkanState) (cfg : KonkanConfig) (p : Nat) : CoverResult :=
  best_cover_to_threshold
    (split_mask (s.players.getD p defaultPlayer).hand_mask).1
    (split_mask (s.players.getD p defaultPlayer).hand_mask).2
    (inlineThreshold cfg s.public)

/-- The union mask of a cover's melds, as accumulated by `lay_down`. -/
def coverUsedMask (c : CoverResult) : Nat :=
  c.melds.foldl (fun acc meld => acc ||| ((meld.mask_hi <<< 64) ||| meld.mask_lo)) 0

theorem testBit_coverUsedMask (c : CoverResult) (i : Nat) :
    (coverUsedMask c).testBit i = c.melds.any (fun m => m.mask.testBit i) := by
  simpa using testBit_foldl_or_meldmask c.melds 0 i

/-- The union of a best cover's meld masks is contained in the queried hand
mask. -/
theorem coverUsedMask_or_hand (hand t : Nat) :
    coverUsedMask (best_cover_to_threshold (split_mask hand).1 (split_mask hand).2 t) ||| hand
      = hand := by
  apply Nat.eq_of_testBit_eq
  intro i
  rw [Nat.testBit_lor, testBit_coverUsedMask]
  cases ha : (best_cover_to_threshold (split_mask hand).1 (split_mask hand).2 t).melds.any
      (fun m => m.mask.testBit i) with
  | false => simp
  | true =>
      obtain ⟨m, hm, hbit⟩ := List.any_eq_true.mp ha
      have hsub := enumerate_melds_mask_subset (best_cover_melds_mem hm) i hbit
      rw [combine_split] at hsub
      simp [hsub]

/-! ## Claim C2 -/

/-- A freshly initialised round whose only player holds A♠, 7♠ and K♠ —
30 raw points but no legal meld at all. -/
def junkHandState : KonkanState :=
  { config := some { num_players := 1, hand_size := 3, come_down_points := 15 }
    players := [{ hand_mask := mask_from_cards [0, 6, 12],
                  phase := TurnPhase.awaiting_trash }]
    public := { draw_pile := [], trash_pile := [], turn_index := 0, dealer_index := 0 } }

/-- Claim C2 counterexample: the solver's best cover of the hand is worth 0
points, far below the effective threshold of 15, yet `lay_down` succeeds
(through the raw-hand-points fallback) instead of raising. -/
theorem C2_lay_down_counterexample :
    inlineThreshold { num_players := 1, hand_size := 3, come_down_points := 15 }
        junkHandState.public = 15 ∧
      (playerCover junkHandState
        { num_players := 1, hand_size := 3, come_down_points := 15 } 0).total_points = 0 ∧
      (lay_down junkHandState 0).toOption.isSome = true := by
  refine ⟨rfl, ?_, ?_⟩ <;> decide

/-- Shared specification of `lay_down`: error behaviour and the cover-path
postconditions. -/
theorem lay_down_spec (s : KonkanState) (p : Nat) :
    ((∃ r, lay_down s p = .ok r) ↔ can_player_come_down s p = true) ∧
      (∀ cfg, s.config = some cfg → s.players ≠ [] →
        cfg.num_players = s.players.length → p < s.players.length →
        (s.players.getD p defaultPlayer).has_come_down = false →
        0 < inlineThreshold cfg s.public →
        inlineThreshold cfg s.public ≤ (playerCover s cfg p).total_points →
        ∃ s2 res, lay_down s p = .ok (s2, res) ∧
          res.used_mask = coverUsedMask (playerCover s cfg p) ∧
          res.used_mask ||| (s.players.getD p defaultPlayer).hand_mask
            = (s.players.getD p defaultPlayer).hand_mask ∧
          (s2.players.getD p defaultPlayer).hand_mask
            = maskDiff (s.players.getD p defaultPlayer).hand_mask res.used_mask ∧
          (s2.players.getD p defaultPlayer).has_come_down = true ∧
          (s2.players.getD p defaultPlayer).laid_mask
            = (s.players.getD p defaultPlayer).laid_mask ||| res.used_mask ∧
          (s2.players.getD p defaultPlayer).laid_points
            = (playerCover s cfg p).total_points ∧
          s2.table = s.table ++ (playerCover s cfg p).melds.map
            (fun m => create_table_meld p m.mask_hi m.mask_lo m.kind m.points) ∧
          s2.public.highest_table_points
            = max s.public.highest_table_points (playerCover s cfg p).total_points) := by
  constructor
  · cases hres : resolveComponents s with
    | error e =>
        have hcan : can_player_come_down s p = false := by
          unfold can_player_come_down
          rw [hres]
        constructor
        · rintro ⟨r, hr⟩
          unfold lay_down at hr
          rw [hres] at hr
          cases hr
        · intro h
          rw [h] at hcan
          cases hcan
    | ok trip =>
        obtain ⟨cfg, players, pub⟩ := trip
        cases hcan : can_player_come_down s p with
        | false =>
            constructor
            · rintro ⟨r, hr⟩
              unfold lay_down at hr
              rw [hres] at hr
              simp [hcan] at hr
            · intro h
              cases h
        | true =>
            refine ⟨fun _ => rfl, fun _ => ?_⟩
            unfold lay_down
            rw [hres]
            simp only [hcan, Bool.not_true, Bool.false_eq_true, if_false]
            have hcan2 := hcan
            unfold can_player_come_down at hcan2
            rw [hres] at hcan2
            dsimp only at hcan2
            split_ifs at hcan2 with h1 h2 h3
            · have hcond : (!decide (inlineThreshold cfg pub
                  ≤ (best_cover_to_threshold
                      (split_mask ((players.getD p defaultPlayer).hand_mask)).1
                      (split_mask ((players.getD p defaultPlayer).hand_mask)).2
                      (inlineThreshold cfg pub)).total_points)
                  && decide (points_from_mask (players.getD p defaultPlayer).hand_mask
                      < inlineThreshold cfg pub)) = false := by
                rw [decide_eq_true h3]
                simp
              simp only [hcond, Bool.false_eq_true, if_false]
              exact ⟨_, rfl⟩
            · have hfall : inlineThreshold cfg pub
                  ≤ points_from_mask (players.getD p defaultPlayer).hand_mask := by
                simpa using hcan2
              have hcond : (!decide (inlineThreshold cfg pub
                  ≤ (best_cover_to_threshold
                      (split_mask ((players.getD p defaultPlayer).hand_mask)).1
                      (split_mask ((players.getD p defaultPlayer).hand_mask)).2
                      (inlineThreshold cfg pub)).total_points)
                  && decide (points_from_mask (players.getD p defaultPlayer).hand_mask
                      < inlineThreshold cfg pub)) = false := by
                rw [decide_eq_false (Nat.not_lt.mpr hfall)]
                simp
              simp only [hcond, Bool.false_eq_true, if_false]
              exact ⟨_, rfl⟩
  · intro cfg hcfg hne hn hp hnotdown hpos hcov
    have hres := resolve_ok hcfg hne hn
    have hlen : ¬ s.players.length ≤ p := Nat.not_le.mpr hp
    have hcan : can_player_come_down s p = true := by
      unfold can_player_come_down
      rw [hres]
      dsimp only
      simp only [hlen, if_false, hnotdown, Bool.false_eq_true]
      rw [if_pos]
      exact hcov
    have hmelds_ne : (playerCover s cfg p).melds ≠ [] := by
      intro hnil
      have htot : (playerCover s cfg p).total_points
          = coverPoints (playerCover s cfg p).melds := best_cover_total_eq
      rw [htot, hnil] at hcov
      simp [coverPoints] at hcov
      omega
    have hcov' : inlineThreshold cfg s.public ≤ (best_cover_to_threshold
        (split_mask (s.players.getD p defaultPlayer).hand_mask).1
        (split_mask (s.players.getD p defaultPlayer).hand_mask).2
        (inlineThreshold cfg s.public)).total_points := hcov
    have hne' : (best_cover_to_threshold
        (split_mask (s.players.getD p defaultPlayer).hand_mask).1
        (split_mask (s.players.getD p defaultPlayer).hand_mask).2
        (inlineThreshold cfg s.public)).melds.isEmpty = false := by
      cases hm : (playerCover s cfg p).melds with
      | nil => exact absurd hm hmelds_ne
      | cons a t =>
          show (playerCover s cfg p).melds.isEmpty = false
          rw [hm]
          rfl
    unfold lay_down
    rw [hres]
    dsimp only
    simp only [hcan, Bool.not_true, Bool.false_eq_true, if_false]
    simp only [if_pos hcov']
    simp only [decide_eq_true hcov', hne', Bool.not_true, Bool.not_false,
      Bool.false_and, Bool.true_and, Bool.and_true, Bool.and_self, if_true, if_false,
      Bool.false_eq_true]
    refine ⟨_, _, rfl, rfl, ?_, ?_, ?_, ?_, ?_, rfl, rfl⟩
    · exact coverUsedMask_or_hand _ _
    · simp [List.getElem?_set_self hp]
    · simp [List.getElem?_set_self hp]
    · simp [List.getElem?_set_self hp]
    · simp [List.getElem?_set_self hp, playerCover]

end Konkan

namespace Konkan

/-- Claim C2 (amended): `lay_down` raises exactly when
`can_player_come_down` is false — i.e. when the best cover is below the
effective threshold AND the raw hand points are also below it (or the state
or index is invalid, or the player already came down).  When the best cover
meets a positive threshold, the lay-down succeeds and atomically moves
exactly the cover's cards (a subset of the hand) from the hand to the table
as new melds owned by the player, sets the come-down flag, and updates the
player's laid points and the public highest table points to the cover's
point total. -/
theorem C2_lay_down (s : KonkanState) (p : Nat) :
    ((∃ r, lay_down s p = .ok r) ↔ can_player_come_down s p = true) ∧
      (∀ cfg, s.config = some cfg → s.players ≠ [] →
        cfg.num_players = s.players.length → p < s.players.length →
        (s.players.getD p defaultPlayer).has_come_down = false →
        0 < inlineThreshold cfg s.public →
        inlineThreshold cfg s.public ≤ (playerCover s cfg p).total_points →
        ∃ s2 res, lay_down s p = .ok (s2, res) ∧
          res.used_mask = coverUsedMask (playerCover s cfg p) ∧
          res.used_mask ||| (s.players.getD p defaultPlayer).hand_mask
            = (s.players.getD p defaultPlayer).hand_mask ∧
          (s2.players.getD p defaultPlayer).hand_mask
            = maskDiff (s.players.getD p defaultPlayer).hand_mask res.used_mask ∧
          (s2.players.getD p defaultPlayer).has_come_down = true ∧
          (s2.players.getD p defaultPlayer).laid_mask
            = (s.players.getD p defaultPlayer).laid_mask ||| res.used_mask ∧
          (s2.players.getD p defaultPlayer).laid_points
            = (playerCover s cfg p).total_points ∧
          s2.table = s.table ++ (playerCover s cfg p).melds.map
            (fun m => create_table_meld p m.mask_hi m.mask_lo m.kind m.points) ∧
          s2.public.highest_table_points
            = max s.public.highest_table_points (playerCover s cfg p).total_points) :=
  lay_down_spec s p

def cfg15 : KonkanConfig := { num_players := 1, hand_size := 3, come_down_points := 15 }

/-- A round whose only player holds A♠, 2♠, 3♠ — a legal run worth exactly
the 15-point threshold. -/
def goodHandState : KonkanState :=
  { config := some cfg15
    players := [{ hand_mask := mask_from_cards [0, 1, 2],
                  phase := TurnPhase.awaiting_trash }]
    public := { draw_pile := [], trash_pile := [], turn_index := 0, dealer_index := 0 } }

/-- Witness for the amended claim C2 on a concrete cover-based lay-down. -/
theorem C2_lay_down_witness :
    ∃ s2 res, lay_down goodHandState 0 = .ok (s2, res) ∧
      res.used_mask = coverUsedMask (playerCover goodHandState cfg15 0) ∧
      res.used_mask ||| (goodHandState.players.getD 0 defaultPlayer).hand_mask
        = (goodHandState.players.getD 0 defaultPlayer).hand_mask ∧
      (s2.players.getD 0 defaultPlayer).hand_mask
        = maskDiff (goodHandState.players.getD 0 defaultPlayer).hand_mask res.used_mask ∧
      (s2.players.getD 0 defaultPlayer).has_come_down = true ∧
      (s2.players.getD 0 defaultPlayer).laid_mask
        = (goodHandState.players.getD 0 defaultPlayer).laid_mask ||| res.used_mask ∧
      (s2.players.getD 0 defaultPlayer).laid_points
        = (playerCover goodHandState cfg15 0).total_points ∧
      s2.table = goodHandState.table ++ (playerCover goodHandState cfg15 0).melds.map
        (fun m => create_table_meld 0 m.mask_hi m.mask_lo m.kind m.points) ∧
      s2.public.highest_table_points
        = max goodHandState.public.highest_table_points
            (playerCover goodHandState cfg15 0).total_points :=
  (C2_lay_down goodHandState 0).2 cfg15 rfl (by decide) rfl (by decide)
    (by decide) (by decide) (by decide)

end Konkan

namespace Konkan

/-! ## Claim C3 -/

theorem findSwapGo_sound {cards : List Nat} {kind c : Nat} :
    ∀ (i : Nat) (rest : List Nat) {cand : List Nat} {tc : Nat},
      findSwapGo cards kind c i rest = some (cand, tc) →
      validate_meld cand kind = true := by
  intro i rest
  induction rest generalizing i with
  | nil => intro cand tc h; cases h
  | cons a t ih =>
      intro cand tc h
      unfold findSwapGo at h
      by_cases hc : (isJoker a && validate_meld (cards.set i c) kind) = true
      · rw [if_pos hc] at h
        cases h
        simp only [Bool.and_eq_true] at hc
        exact hc.2
      · rw [if_neg hc] at h
        exact ih (i + 1) h

theorem findSwap_sound {cards : List Nat} {kind c : Nat} {cand : List Nat} {tc : Nat}
    (h : findSwap cards kind c = some (cand, tc)) : validate_meld cand kind = true :=
  findSwapGo_sound 0 cards h

/-- Inversion for a successful `sarf_card`: the new state replaces exactly
one table meld by `assign_meld_cards` on a candidate card list that was
accepted by `_validate_meld` for the meld's kind, and replaces one player
record. -/
theorem sarf_card_ok_shape {s : KonkanState} {p m c : Nat} {s2 : KonkanState}
    (hok : sarf_card s p m c = .ok s2) :
    ∃ candidate returned,
      validate_meld candidate (s.table.getD m defaultMeld).kind = true ∧
      s2 = sarfApply s p m c (s.players.getD p defaultPlayer)
        (s.table.getD m defaultMeld) candidate returned := by
  unfold sarf_card at hok
  cases hres : resolveComponents s with
  | error e => rw [hres] at hok; cases hok
  | ok trip =>
      obtain ⟨cfg, players, pub⟩ := trip
      obtain ⟨hcfgX, hpl, hpub, hneX, hnX⟩ := resolve_ok_inv hres
      simp only at hpl hpub
      subst hpl
      subst hpub
      rw [hres] at hok
      dsimp only at hok
      by_cases h1 : (s.public.winner_index != none) = true
      · rw [if_pos h1] at hok; cases hok
      · rw [if_neg h1] at hok
        by_cases h2 : s.players.length ≤ p
        · rw [if_pos h2] at hok; cases hok
        · rw [if_neg h2] at hok
          by_cases h3 : s.table.length ≤ m
          · rw [if_pos h3] at hok; cases hok
          · rw [if_neg h3] at hok
            by_cases h4 : (!(s.players.getD p defaultPlayer).has_come_down) = true
            · rw [if_pos h4] at hok; cases hok
            · rw [if_neg h4] at hok
              by_cases h5 : (!has_card (s.players.getD p defaultPlayer).hand_mask c) = true
              · rw [if_pos h5] at hok; cases hok
              · rw [if_neg h5] at hok
                by_cases h6 : (s.table.getD m defaultMeld).is_four_set = true
                · rw [if_pos h6] at hok; cases hok
                · rw [if_neg h6] at hok
                  cases hpre : sarfPrecheckError (s.table.getD m defaultMeld) c with
                  | some e => rw [hpre] at hok; cases hok
                  | none =>
                      rw [hpre] at hok
                      by_cases h7 : (decode_id c).is_joker = true
                      · rw [if_pos h7] at hok; cases hok
                      · rw [if_neg h7] at hok
                        by_cases h8 : ((s.table.getD m defaultMeld).cards.any
                            (fun card => isJoker card)) = true
                        · rw [if_pos h8] at hok
                          cases hfs : findSwap (s.table.getD m defaultMeld).cards
                              (s.table.getD m defaultMeld).kind c with
                          | some pair =>
                              obtain ⟨cand, tc⟩ := pair
                              rw [hfs] at hok
                              cases hok
                              exact ⟨cand, some tc, findSwap_sound hfs, rfl⟩
                          | none =>
                              rw [hfs] at hok
                              by_cases h9 : (!validate_meld
                                  ((s.table.getD m defaultMeld).cards ++ [c])
                                  (s.table.getD m defaultMeld).kind) = true
                              · rw [if_pos h9] at hok; cases hok
                              · rw [if_neg h9] at hok
                                cases hok
                                refine ⟨(s.table.getD m defaultMeld).cards ++ [c],
                                  none, ?_, rfl⟩
                                simpa using h9
                        · rw [if_neg h8] at hok
                          by_cases h9 : (!validate_meld
                              ((s.table.getD m defaultMeld).cards ++ [c])
                              (s.table.getD m defaultMeld).kind) = true
                          · rw [if_pos h9] at hok; cases hok
                          · rw [if_neg h9] at hok
                            cases hok
                            refine ⟨(s.table.getD m defaultMeld).cards ++ [c],
                              none, ?_, rfl⟩
                            simpa using h9

/-- Every table entry built by `lay_down` from a solver meld validates. -/
theorem create_table_meld_valid {mhi mlo : Nat} {nm : NativeMeld}
    (h : nm ∈ enumerate_melds mhi mlo) (p : Nat) :
    validate_meld (create_table_meld p nm.mask_hi nm.mask_lo nm.kind nm.points).cards
      (create_table_meld p nm.mask_hi nm.mask_lo nm.kind nm.points).kind = true := by
  obtain ⟨sub, hsub, hcase⟩ := mem_enumerate_melds.mp h
  have hrange : List.Sublist sub (List.range 128) :=
    hsub.trans (cards_from_mask_sublist_range _)
  have hb : ∀ x ∈ sub, x < 128 := fun x hx => List.mem_range.mp (hrange.subset hx)
  have hmask : nm.mask = mask_from_cards sub := by
    rcases hcase with ⟨_, rfl⟩ | ⟨_, _, rfl⟩ <;> exact nativeMeldOf_mask _ _
  have hcards : (create_table_meld p nm.mask_hi nm.mask_lo nm.kind nm.points).cards = sub := by
    show cards_from_mask ((nm.mask_hi <<< 64) ||| nm.mask_lo) = sub
    have : ((nm.mask_hi <<< 64) ||| nm.mask_lo) = nm.mask := rfl
    rw [this, hmask]
    exact cards_from_mask_of_sublist_range hrange
  have hkind : (create_table_meld p nm.mask_hi nm.mask_lo nm.kind nm.points).kind = nm.kind :=
    rfl
  rw [hcards, hkind]
  have hcanon : cards_from_mask (mask_from_cards sub) = sub :=
    cards_from_mask_of_sublist_range hrange
  rw [validate_meld_true_iff hb, hcanon]
  rcases hcase with ⟨hset, rfl⟩ | ⟨hset, hrun, rfl⟩
  · exact Or.inl ⟨hset, rfl⟩
  · exact Or.inr ⟨hset, hrun, rfl⟩

/-- Claim C3 (amended): `sarf_card` preserves the invariant that every
table meld passes `_validate_meld` (legal set or run of its kind), and
`lay_down` preserves it on the solver-cover path (best cover meeting a
positive effective threshold); the raw-points fallback of `lay_down`,
however, lays the entire hand as a single kind-`run` table entry which need
not be legal (see the counterexample). -/
theorem C3_table_meld_legality (s : KonkanState) :
    (∀ (p m c : Nat) (s2 : KonkanState),
        (∀ meld ∈ s.table, validate_meld meld.cards meld.kind = true) →
        sarf_card s p m c = .ok s2 →
        ∀ meld ∈ s2.table, validate_meld meld.cards meld.kind = true) ∧
      (∀ (p : Nat) (cfg : KonkanConfig), s.config = some cfg → s.players ≠ [] →
        cfg.num_players = s.players.length → p < s.players.length →
        (s.players.getD p defaultPlayer).has_come_down = false →
        0 < inlineThreshold cfg s.public →
        inlineThreshold cfg s.public ≤ (playerCover s cfg p).total_points →
        (∀ meld ∈ s.table, validate_meld meld.cards meld.kind = true) →
        ∀ s2 res, lay_down s p = .ok (s2, res) →
        ∀ meld ∈ s2.table, validate_meld meld.cards meld.kind = true) := by
  constructor
  · intro p m c s2 hinv hok meld hmeld
    obtain ⟨cand, returned, hval, rfl⟩ := sarf_card_ok_shape hok
    have : meld ∈ s.table.set m (assign_meld_cards (s.table.getD m defaultMeld) cand) := hmeld
    rcases List.mem_or_eq_of_mem_set this with hold | hnew
    · exact hinv meld hold
    · subst hnew
      show validate_meld cand (s.table.getD m defaultMeld).kind = true
      exact hval
  · intro p cfg hcfg hne hn hp hnotdown hpos hcov hinv s2 res hok
    obtain ⟨s2x, resx, hokx, _, _, _, _, _, _, htable, _⟩ :=
      (lay_down_spec s p).2 cfg hcfg hne hn hp hnotdown hpos hcov
    rw [hok] at hokx
    have hpair := Except.ok.inj hokx
    have hs2 : s2x = s2 := (congrArg Prod.fst hpair).symm
    subst hs2
    intro meld hmeld
    rw [htable] at hmeld
    rcases List.mem_append.mp hmeld with hold | hnew
    · exact hinv meld hold
    · obtain ⟨nm, hnm, rfl⟩ := List.mem_map.mp hnew
      exact create_table_meld_valid (best_cover_melds_mem hnm) p

/-- Spec scenario S5: a run 7♠ 8♠ 9♠ on the table owned by player 1, and
player 0 (already down, not the current player) holding 10♠. -/
def s5Meld : MeldOnTable :=
  { mask_hi := 0, mask_lo := mask_from_cards [6, 7, 8], cards := [6, 7, 8],
    owner := 1, kind := RUN_KIND, has_joker := false, points := 24, is_four_set := false }

def s5State : KonkanState :=
  { config := some { num_players := 2 }
    players := [{ hand_mask := mask_from_cards [9], has_come_down := true,
                  phase := TurnPhase.awaiting_draw },
                { phase := TurnPhase.awaiting_trash }]
    public := { draw_pile := [], trash_pile := [], turn_index := 0, dealer_index := 0,
                current_player_index := 1 }
    table := [s5Meld] }

/-- Claim C3 counterexample: from a freshly dealt (hence reachable) round,
`lay_down` by the fallback path puts the whole hand — A♠, 7♠, K♠ — on the
table as one kind-`run` entry that is neither a legal run nor a legal set. -/
theorem C3_table_meld_legality_counterexample :
    (Option.bind (deal_new_game cfg15 [0, 6, 12]) (fun s0 => (lay_down s0 0).toOption)).map
        (fun r => r.1.table.map
          (fun meld => (meld.cards, meld.kind, isLegalMeldList meld.kind meld.cards,
            validate_meld meld.cards meld.kind)))
      = some [([0, 6, 12], RUN_KIND, false, false)] := by
  decide

/-- Witness for the amended claim C3: a sarf extension on a legal table
keeps every meld legal. -/
theorem C3_table_meld_legality_witness :
    (∀ meld ∈ s5State.table, validate_meld meld.cards meld.kind = true) ∧
      ∃ s2, sarf_card s5State 0 0 9 = .ok s2 ∧
        ∀ meld ∈ s2.table, validate_meld meld.cards meld.kind = true := by
  refine ⟨by decide, ?_⟩
  have hsome : (sarf_card s5State 0 0 9).toOption.isSome = true := by decide
  cases hfs : sarf_card s5State 0 0 9 with
  | error e =>
      rw [hfs] at hsome
      simp [Except.toOption] at hsome
  | ok s2 =>
      exact ⟨s2, rfl, (C3_table_meld_legality s5State).1 0 0 9 s2 (by decide) hfs⟩

end Konkan

namespace Konkan

/-! ## Claim C6 -/

theorem findSwapGo_found_joker {cards : List Nat} {kind c : Nat} :
    ∀ (i : Nat) (rest : List Nat) {cand : List Nat} {tc : Nat},
      findSwapGo cards kind c i rest = some (cand, tc) →
      isJoker tc = true ∧ tc ∈ rest := by
  intro i rest
  induction rest generalizing i with
  | nil => intro cand tc h; cases h
  | cons a t ih =>
      intro cand tc h
      unfold findSwapGo at h
      by_cases hc : (isJoker a && validate_meld (cards.set i c) kind) = true
      · rw [if_pos hc] at h
        cases h
        simp only [Bool.and_eq_true] at hc
        exact ⟨hc.1, List.mem_cons_self _ _⟩
      · rw [if_neg hc] at h
        obtain ⟨hj, hmem⟩ := ih (i + 1) h
        exact ⟨hj, List.mem_cons_of_mem _ hmem⟩

theorem findSwap_found_joker {cards : List Nat} {kind c : Nat} {cand : List Nat} {tc : Nat}
    (h : findSwap cards kind c = some (cand, tc)) :
    isJoker tc = true ∧ tc ∈ cards :=
  findSwapGo_found_joker 0 cards h

/-- Claim C6 (amended): `sarf_card` succeeds exactly when the round is
live, the state components and both indices are valid, the player has come
down and holds the non-joker card, the target meld is not sealed, the
rank/suit pre-filters pass, and the card is a joker-swap (some joker
position whose replacement validates) or a validated extension of the meld.
The current player and the turn phase are NOT checked. -/
theorem C6_sarf_card_error_characterisation (s : KonkanState) (p m c : Nat) :
    (∃ s2, sarf_card s p m c = .ok s2) ↔
      ((∃ cfg, s.config = some cfg ∧ cfg.num_players = s.players.length) ∧
        s.players ≠ [] ∧
        s.public.winner_index = none ∧
        p < s.players.length ∧
        m < s.table.length ∧
        (s.players.getD p defaultPlayer).has_come_down = true ∧
        has_card (s.players.getD p defaultPlayer).hand_mask c = true ∧
        (s.table.getD m defaultMeld).is_four_set = false ∧
        sarfPrecheckError (s.table.getD m defaultMeld) c = none ∧
        (decode_id c).is_joker = false ∧
        ((∃ r, findSwap (s.table.getD m defaultMeld).cards
            (s.table.getD m defaultMeld).kind c = some r) ∨
          validate_meld ((s.table.getD m defaultMeld).cards ++ [c])
            (s.table.getD m defaultMeld).kind = true)) := by
  constructor
  · rintro ⟨s2, hok⟩
    unfold sarf_card at hok
    cases hres : resolveComponents s with
    | error e => rw [hres] at hok; cases hok
    | ok trip =>
        obtain ⟨cfg, players, pub⟩ := trip
        obtain ⟨hcfgX, hpl, hpub, hneX, hnX⟩ := resolve_ok_inv hres
        simp only at hcfgX hpl hpub hnX
        subst hpl
        subst hpub
        rw [hres] at hok
        dsimp only at hok
        by_cases h1 : (s.public.winner_index != none) = true
        · rw [if_pos h1] at hok; cases hok
        · rw [if_neg h1] at hok
          by_cases h2 : s.players.length ≤ p
          · rw [if_pos h2] at hok; cases hok
          · rw [if_neg h2] at hok
            by_cases h3 : s.table.length ≤ m
            · rw [if_pos h3] at hok; cases hok
            · rw [if_neg h3] at hok
              by_cases h4 : (!(s.players.getD p defaultPlayer).has_come_down) = true
              · rw [if_pos h4] at hok; cases hok
              · rw [if_neg h4] at hok
                by_cases h5 : (!has_card (s.players.getD p defaultPlayer).hand_mask c) = true
                · rw [if_pos h5] at hok; cases hok
                · rw [if_neg h5] at hok
                  by_cases h6 : (s.table.getD m defaultMeld).is_four_set = true
                  · rw [if_pos h6] at hok; cases hok
                  · rw [if_neg h6] at hok
                    cases hpre : sarfPrecheckError (s.table.getD m defaultMeld) c with
                    | some e => rw [hpre] at hok; cases hok
                    | none =>
                        rw [hpre] at hok
                        by_cases h7 : (decode_id c).is_joker = true
                        · rw [if_pos h7] at hok; cases hok
                        · rw [if_neg h7] at hok
                          have hlast : (∃ r, findSwap (s.table.getD m defaultMeld).cards
                              (s.table.getD m defaultMeld).kind c = some r) ∨
                              validate_meld ((s.table.getD m defaultMeld).cards ++ [c])
                                (s.table.getD m defaultMeld).kind = true := by
                            by_cases h8 : ((s.table.getD m defaultMeld).cards.any
                                (fun card => isJoker card)) = true
                            · rw [if_pos h8] at hok
                              cases hfs : findSwap (s.table.getD m defaultMeld).cards
                                  (s.table.getD m defaultMeld).kind c with
                              | some pair => exact Or.inl ⟨pair, rfl⟩
                              | none =>
                                  rw [hfs] at hok
                                  by_cases h9 : (!validate_meld
                                      ((s.table.getD m defaultMeld).cards ++ [c])
                                      (s.table.getD m defaultMeld).kind) = true
                                  · rw [if_pos h9] at hok; cases hok
                                  · exact Or.inr (by simpa using h9)
                            · rw [if_neg h8] at hok
                              by_cases h9 : (!validate_meld
                                  ((s.table.getD m defaultMeld).cards ++ [c])
                                  (s.table.getD m defaultMeld).kind) = true
                              · rw [if_pos h9] at hok; cases hok
                              · exact Or.inr (by simpa using h9)
                          exact ⟨⟨cfg, hcfgX, hnX⟩, hneX, by simpa using h1,
                            by omega, by omega, by simpa using h4, by simpa using h5,
                            by simpa using h6, rfl, by simpa using h7, hlast⟩
  · rintro ⟨⟨cfg, hcfg, hn⟩, hne, hw, hp, hm, hdown, hhand, hseal, hpre, hjok, hlast⟩
    unfold sarf_card
    rw [resolve_ok hcfg hne hn]
    dsimp only
    rw [if_neg (by rw [hw]; simp), if_neg (Nat.not_le.mpr hp), if_neg (Nat.not_le.mpr hm),
      if_neg (by rw [hdown]; simp), if_neg (by rw [hhand]; simp),
      if_neg (by rw [hseal]; simp), hpre]
    rw [if_neg (by rw [hjok]; simp)]
    rcases hlast with ⟨⟨cand, tc⟩, hfs⟩ | hval
    · obtain ⟨hj, hmem⟩ := findSwap_found_joker hfs
      have hany : ((s.table.getD m defaultMeld).cards.any (fun card => isJoker card)) = true :=
        List.any_eq_true.mpr ⟨tc, hmem, hj⟩
      rw [if_pos hany, hfs]
      exact ⟨_, rfl⟩
    · by_cases h8 : ((s.table.getD m defaultMeld).cards.any (fun card => isJoker card)) = true
      · rw [if_pos h8]
        cases hfs : findSwap (s.table.getD m defaultMeld).cards
            (s.table.getD m defaultMeld).kind c with
        | some pair =>
            obtain ⟨cand, tc⟩ := pair
            exact ⟨_, rfl⟩
        | none =>
            rw [if_neg (by rw [hval]; simp)]
            exact ⟨_, rfl⟩
      · rw [if_neg h8, if_neg (by rw [hval]; simp)]
        exact ⟨_, rfl⟩

/-- Claim C6 counterexample: player 0 is not the current player and is not
in the discard phase, yet `sarf_card` succeeds — the engine never checks
turn or phase for a sarf. -/
theorem C6_sarf_card_counterexample :
    s5State.public.current_player_index ≠ 0 ∧
      (s5State.players.getD 0 defaultPlayer).phase ≠ TurnPhase.awaiting_trash ∧
      (sarf_card s5State 0 0 9).toOption.isSome = true := by
  decide

end Konkan

namespace Konkan

/-! ## List and legality lemmas for the joker swap -/

theorem mem_set_self {l : List Nat} (i : Nat) (c : Nat) (h : i < l.length) :
    c ∈ l.set i c := by
  induction l generalizing i with
  | nil => cases h
  | cons a t ih =>
      cases i with
      | zero => exact List.mem_cons_self _ _
      | succ j => exact List.mem_cons_of_mem _ (ih j (by simpa using h))

theorem mem_set_of_ne_getD {l : List Nat} {x : Nat} (i c : Nat)
    (hx : x ∈ l) (hne : x ≠ l.getD i 0) : x ∈ l.set i c := by
  induction l generalizing i with
  | nil => cases hx
  | cons a t ih =>
      cases i with
      | zero =>
          rcases List.mem_cons.mp hx with rfl | hx
          · exact absurd rfl hne
          · exact List.mem_cons_of_mem _ hx
      | succ j =>
          rcases List.mem_cons.mp hx with rfl | hx
          · exact List.mem_cons_self _ _
          · exact List.mem_cons_of_mem _ (ih j hx hne)

/-- `decode_id` reports exactly the `JOKER_IDS` membership test. -/
theorem decode_id_is_joker (x : Nat) : (decode_id x).is_joker = isJoker x := by
  unfold decode_id
  by_cases h : isJoker x = true
  · simp [h]
  · simp only [Bool.not_eq_true] at h
    simp [h]

/-- Members of the canonical card list of a list's mask. -/
theorem mem_canon {l : List Nat} {x : Nat} :
    x ∈ cards_from_mask (mask_from_cards l) ↔ x ∈ l ∧ x < 128 := by
  rw [mem_cards_from_mask, testBit_mask_from_cards]
  simp

/-- In a legal set, all non-joker cards share one rank. -/
theorem isLegalSet_rank_eq {l : List Nat} (h : isLegalSet l = true) :
    ∀ x ∈ l.filter (fun card => !isJoker card), ∀ y ∈ l.filter (fun card => !isJoker card),
      rankOf x = rankOf y := by
  unfold isLegalSet at h
  simp only [Bool.and_eq_true] at h
  obtain ⟨⟨_, hmatch⟩, _⟩ := h
  cases hbase : l.filter (fun card => !isJoker card) with
  | nil => intro x hx; cases hx
  | cons b rest =>
      rw [hbase] at hmatch
      have hall : ∀ z ∈ rest, rankOf z = rankOf b := by
        intro z hz
        have := List.all_eq_true.mp hmatch z hz
        simpa using this
      intro x hx y hy
      have hxr : rankOf x = rankOf b := by
        rcases List.mem_cons.mp hx with rfl | hx
        · rfl
        · exact hall x hx
      have hyr : rankOf y = rankOf b := by
        rcases List.mem_cons.mp hy with rfl | hy
        · rfl
        · exact hall y hy
      rw [hxr, hyr]

/-- In a legal set, non-joker suits are pairwise distinct. -/
theorem isLegalSet_suit_nodup {l : List Nat} (h : isLegalSet l = true) :
    ((l.filter (fun card => !isJoker card)).map suitOf).Nodup := by
  unfold isLegalSet at h
  simp only [Bool.and_eq_true] at h
  exact of_decide_eq_true h.2

/-- In a legal run, all non-joker cards share one suit. -/
theorem isLegalRun_suit_eq {l : List Nat} (h : isLegalRun l = true) :
    ∀ x ∈ l.filter (fun card => !isJoker card), ∀ y ∈ l.filter (fun card => !isJoker card),
      suitOf x = suitOf y := by
  unfold isLegalRun at h
  simp only [Bool.and_eq_true] at h
  obtain ⟨⟨_, hmatch⟩, _⟩ := h
  cases hbase : l.filter (fun card => !isJoker card) with
  | nil => intro x hx; cases hx
  | cons b rest =>
      rw [hbase] at hmatch
      have hall : ∀ z ∈ rest, suitOf z = suitOf b := by
        intro z hz
        have := List.all_eq_true.mp hmatch z hz
        simpa using this
      intro x hx y hy
      have hxr : suitOf x = suitOf b := by
        rcases List.mem_cons.mp hx with rfl | hx
        · rfl
        · exact hall x hx
      have hyr : suitOf y = suitOf b := by
        rcases List.mem_cons.mp hy with rfl | hy
        · rfl
        · exact hall y hy
      rw [hxr, hyr]

end Konkan

namespace Konkan

theorem getD_mem {l : List Nat} {n : Nat} (d : Nat) (h : n < l.length) :
    l.getD n d ∈ l := by
  rw [List.getD_eq_getElem l d h]
  exact List.getElem_mem h

/-- The joker-swap scan returns the replacement at the first joker position
when that replacement validates and no earlier position holds a joker. -/
theorem findSwapGo_at {cards : List Nat} {kind c jIdx : Nat}
    (hj : jIdx < cards.length)
    (hjoker : isJoker (cards.getD jIdx 0) = true)
    (hbefore : ∀ q, q < jIdx → isJoker (cards.getD q 0) = false)
    (hval : validate_meld (cards.set jIdx c) kind = true) :
    ∀ (rest : List Nat) (i : Nat), i ≤ jIdx → rest = cards.drop i →
      findSwapGo cards kind c i rest = some (cards.set jIdx c, cards.getD jIdx 0) := by
  intro rest
  induction rest with
  | nil =>
      intro i hi hrest
      exfalso
      have : cards.length ≤ i := List.drop_eq_nil_iff.mp hrest.symm
      omega
  | cons a t ih =>
      intro i hi hrest
      have hlen : i < cards.length := by omega
      have hget : cards.getD i 0 = a := by
        have h0 : (cards.drop i)[0]? = some a := by
          rw [← hrest]
          simp
        have h1 : cards[i]? = some a := by
          rw [List.getElem?_drop cards i 0] at h0
          simpa using h0
        simp [List.getD_eq_getElem?_getD, h1]
      unfold findSwapGo
      by_cases hcase : i = jIdx
      · subst hcase
        rw [if_pos]
        · rw [hget]
        · rw [hget] at hjoker
          rw [hjoker, hval]
          rfl
      · have hlt : i < jIdx := by omega
        have hnj : isJoker a = false := by
          rw [← hget]
          exact hbefore i hlt
        rw [if_neg (by rw [hnj]; simp)]
        apply ih (i + 1) (by omega)
        have : List.drop 1 (List.drop i cards) = List.drop (i + 1) cards := by
          rw [List.drop_drop 1 i cards]
        rw [← this, ← hrest]
        rfl

theorem findSwap_at {cards : List Nat} {kind c jIdx : Nat}
    (hj : jIdx < cards.length)
    (hjoker : isJoker (cards.getD jIdx 0) = true)
    (hbefore : ∀ q, q < jIdx → isJoker (cards.getD q 0) = false)
    (hval : validate_meld (cards.set jIdx c) kind = true) :
    findSwap cards kind c = some (cards.set jIdx c, cards.getD jIdx 0) :=
  findSwapGo_at hj hjoker hbefore hval cards 0 (Nat.zero_le _) rfl

end Konkan

namespace Konkan

/-- The set/run pre-filters of `sarf_card` pass whenever replacing the
joker at `jIdx` by the non-joker card `c` yields a card set the solver
validates for the meld's kind. -/
theorem swap_precheck_none {meld : MeldOnTable} {c jIdx : Nat}
    (hj : jIdx < meld.cards.length)
    (hjoker : isJoker (meld.cards.getD jIdx 0) = true)
    (hb : ∀ x ∈ meld.cards, x < 128) (hcb : c < 128)
    (hcnj : isJoker c = false) (hcNotIn : c ∉ meld.cards)
    (hRep : validate_meld (meld.cards.set jIdx c) meld.kind = true) :
    sarfPrecheckError meld c = none := by
  have hbcand : ∀ x ∈ meld.cards.set jIdx c, x < 128 := by
    intro x hx
    rcases List.mem_or_eq_of_mem_set hx with h | rfl
    · exact hb x h
    · exact hcb
  rw [validate_meld_true_iff hbcand] at hRep
  have hcmem : c ∈ cards_from_mask (mask_from_cards (meld.cards.set jIdx c)) :=
    mem_canon.mpr ⟨mem_set_self jIdx c hj, hcb⟩
  have hcfilter : c ∈ (cards_from_mask (mask_from_cards (meld.cards.set jIdx c))).filter
      (fun card => !isJoker card) :=
    List.mem_filter.mpr ⟨hcmem, by rw [hcnj]; rfl⟩
  have hbfilter : ∀ x ∈ meld.cards.filter (fun card => !isJoker card),
      x ∈ (cards_from_mask (mask_from_cards (meld.cards.set jIdx c))).filter
        (fun card => !isJoker card) := by
    intro x hx
    obtain ⟨hxm, hxnj⟩ := List.mem_filter.mp hx
    refine List.mem_filter.mpr ⟨mem_canon.mpr ⟨?_, hb x hxm⟩, hxnj⟩
    apply mem_set_of_ne_getD jIdx c hxm
    intro heq
    rw [heq, hjoker] at hxnj
    cases hxnj
  unfold sarfPrecheckError
  rcases hRep with ⟨hset, hkS⟩ | ⟨_, hrun, hkR⟩
  · rw [hkS]
    simp only [beq_self_eq_true, if_true, decode_id_is_joker, hcnj,
      Bool.false_eq_true, if_false]
    have hcond1 : (!(meld.cards.filter (fun card => !isJoker card)).isEmpty
        && !(((meld.cards.filter (fun card => !isJoker card)).map rankOf).contains
          (decode_id c).rank_idx)) = false := by
      cases hbase : meld.cards.filter (fun card => !isJoker card) with
      | nil => rfl
      | cons b0 rest =>
          have hb0 : b0 ∈ meld.cards.filter (fun card => !isJoker card) := by
            rw [hbase]
            exact List.mem_cons_self _ _
          have hreq : rankOf c = rankOf b0 :=
            isLegalSet_rank_eq hset c hcfilter b0 (hbfilter b0 hb0)
          have hcontains : ((b0 :: rest).map rankOf).contains ((decode_id c).rank_idx)
              = true := by
            apply List.elem_iff.mpr
            show rankOf c ∈ _
            rw [hreq]
            exact List.mem_map_of_mem rankOf (List.mem_cons_self _ _)
          rw [hcontains]
          simp
    rw [hcond1]
    simp only [Bool.false_eq_true, if_false]
    have hcond2 : (((meld.cards.filter (fun card => !isJoker card)).map suitOf).contains
        ((decode_id c).suit_idx)) = false := by
      cases hcont : ((meld.cards.filter (fun card => !isJoker card)).map suitOf).contains
          ((decode_id c).suit_idx) with
      | false => rfl
      | true =>
          exfalso
          have : (decode_id c).suit_idx ∈
              (meld.cards.filter (fun card => !isJoker card)).map suitOf :=
            List.elem_iff.mp hcont
          obtain ⟨x, hxmem, hxeq⟩ := List.mem_map.mp this
          have hxc : x = c :=
            List.inj_on_of_nodup_map (isLegalSet_suit_nodup hset)
              (hbfilter x hxmem) hcfilter hxeq
          subst hxc
          exact hcNotIn (List.mem_filter.mp hxmem).1
    rw [hcond2]
    simp
  · rw [hkR]
    simp only [show (RUN_KIND == SET_KIND) = false from rfl, Bool.false_eq_true, if_false]
    have hcond : (!(meld.cards.filter (fun card => !isJoker card)).isEmpty
        && !(((meld.cards.filter (fun card => !isJoker card)).map suitOf).contains
          ((decode_id c).suit_idx))) = false := by
      cases hbase : meld.cards.filter (fun card => !isJoker card) with
      | nil => rfl
      | cons b0 rest =>
          have hb0 : b0 ∈ meld.cards.filter (fun card => !isJoker card) := by
            rw [hbase]
            exact List.mem_cons_self _ _
          have hseq : suitOf c = suitOf b0 :=
            isLegalRun_suit_eq hrun c hcfilter b0 (hbfilter b0 hb0)
          have hcontains : ((b0 :: rest).map suitOf).contains ((decode_id c).suit_idx)
              = true := by
            apply List.elem_iff.mpr
            show suitOf c ∈ _
            rw [hseq]
            exact List.mem_map_of_mem suitOf (List.mem_cons_self _ _)
          rw [hcontains]
          simp
    rw [hcond]
    simp

end Konkan

namespace Konkan

/-! ## Claim C7 -/

/-- Claim C7: a come-down player sarfing a non-joker card onto a non-sealed
meld that contains a joker, such that replacing that joker by the card
validates for the meld's kind, succeeds: the card takes the joker's place
in the meld (kind and owner unchanged — the owner may be any player), the
joker moves into the actor's hand, the card joins the actor's laid mask and
the actor's laid points grow by the card's rank points.  The hypotheses
also record the standing well-formedness facts: card identifiers are in
range, and `c`, held in the hand, is neither on the meld nor already
credited to the actor's laid mask. -/
theorem C7_sarf_joker_swap (s : KonkanState) (p m c : Nat) (cfg : KonkanConfig)
    (hcfg : s.config = some cfg) (hne : s.players ≠ [])
    (hn : cfg.num_players = s.players.length)
    (hw : s.public.winner_index = none)
    (hp : p < s.players.length) (hm : m < s.table.length)
    (hdown : (s.players.getD p defaultPlayer).has_come_down = true)
    (hhand : has_card (s.players.getD p defaultPlayer).hand_mask c = true)
    (hseal : (s.table.getD m defaultMeld).is_four_set = false)
    (hb : ∀ x ∈ (s.table.getD m defaultMeld).cards, x < 128) (hcb : c < 128)
    (hcnj : isJoker c = false)
    (hcNotIn : c ∉ (s.table.getD m defaultMeld).cards)
    (hNotLaid : has_card (s.players.getD p defaultPlayer).laid_mask c = false)
    (hj : (s.table.getD m defaultMeld).cards.findIdx isJoker
        < (s.table.getD m defaultMeld).cards.length)
    (hRep : validate_meld ((s.table.getD m defaultMeld).cards.set
        ((s.table.getD m defaultMeld).cards.findIdx isJoker) c)
        (s.table.getD m defaultMeld).kind = true) :
    ∃ s2, sarf_card s p m c = .ok s2 ∧
      (s2.table.getD m defaultMeld).cards
        = (s.table.getD m defaultMeld).cards.set
            ((s.table.getD m defaultMeld).cards.findIdx isJoker) c ∧
      (s2.table.getD m defaultMeld).kind = (s.table.getD m defaultMeld).kind ∧
      (s2.table.getD m defaultMeld).owner = (s.table.getD m defaultMeld).owner ∧
      isJoker ((s.table.getD m defaultMeld).cards.getD
          ((s.table.getD m defaultMeld).cards.findIdx isJoker) 0) = true ∧
      (s2.players.getD p defaultPlayer).hand_mask
        = add_card (remove_card (s.players.getD p defaultPlayer).hand_mask c)
            ((s.table.getD m defaultMeld).cards.getD
              ((s.table.getD m defaultMeld).cards.findIdx isJoker) 0) ∧
      (s2.players.getD p defaultPlayer).laid_mask
        = add_card (s.players.getD p defaultPlayer).laid_mask c ∧
      (s2.players.getD p defaultPlayer).laid_points
        = (s.players.getD p defaultPlayer).laid_points + card_points c := by
  have hjoker : isJoker ((s.table.getD m defaultMeld).cards.getD
      ((s.table.getD m defaultMeld).cards.findIdx isJoker) 0) = true := by
    rw [List.getD_eq_getElem _ 0 hj]
    exact List.findIdx_getElem
  have hbefore : ∀ q, q < (s.table.getD m defaultMeld).cards.findIdx isJoker →
      isJoker ((s.table.getD m defaultMeld).cards.getD q 0) = false := by
    intro q hq
    have hqlen : q < (s.table.getD m defaultMeld).cards.length := by omega
    rw [List.getD_eq_getElem _ 0 hqlen]
    exact List.not_of_lt_findIdx hq
  have hfs := findSwap_at hj hjoker hbefore hRep
  have hpre := swap_precheck_none hj hjoker hb hcb hcnj hcNotIn hRep
  have hany : ((s.table.getD m defaultMeld).cards.any (fun card => isJoker card)) = true :=
    List.any_eq_true.mpr ⟨_, getD_mem 0 hj, hjoker⟩
  unfold sarf_card
  rw [resolve_ok hcfg hne hn]
  dsimp only
  rw [if_neg (by rw [hw]; simp), if_neg (Nat.not_le.mpr hp), if_neg (Nat.not_le.mpr hm),
    if_neg (by rw [hdown]; simp), if_neg (by rw [hhand]; simp),
    if_neg (by rw [hseal]; simp), hpre]
  rw [if_neg (by rw [decode_id_is_joker, hcnj]; simp)]
  rw [if_pos hany, hfs]
  refine ⟨_, rfl, ?_, ?_, ?_, hjoker, ?_, ?_, ?_⟩
  · simp only [sarfApply]
    rw [getD_set_self _ _ _ _ hm]
    rfl
  · simp only [sarfApply]
    rw [getD_set_self _ _ _ _ hm]
    rfl
  · simp only [sarfApply]
    rw [getD_set_self _ _ _ _ hm]
    rfl
  · simp only [sarfApply]
    rw [getD_set_self _ _ _ _ hp]
    simp only [hNotLaid, Bool.not_false, if_true]
  · simp only [sarfApply]
    rw [getD_set_self _ _ _ _ hp]
    simp only [hNotLaid, Bool.not_false, if_true]
  · simp only [sarfApply]
    rw [getD_set_self _ _ _ _ hp]
    simp only [hNotLaid, Bool.not_false, if_true]

end Konkan

namespace Konkan

/-- Spec scenario S6: table set {7♠, 7♥, joker} owned by player 1; player 0
(already down) holds 7♦. -/
def s6Meld : MeldOnTable :=
  { mask_hi := (split_mask (mask_from_cards [6, 19, 104])).1
    mask_lo := (split_mask (mask_from_cards [6, 19, 104])).2
    cards := [6, 19, 104]
    owner := 1
    kind := SET_KIND
    has_joker := true
    points := 21
    is_four_set := false }

def s6State : KonkanState :=
  { config := some { num_players := 2 }
    players := [{ hand_mask := mask_from_cards [32], has_come_down := true },
                { has_come_down := true }]
    public := { draw_pile := [], trash_pile := [], turn_index := 0, dealer_index := 0,
                current_player_index := 0 }
    table := [s6Meld] }

/-- Witness for claim C7 at spec scenario S6: sarfing 7♦ onto {7♠, 7♥,
joker} swaps the joker out into player 0's hand even though player 1 owns
the meld. -/
theorem C7_sarf_joker_swap_witness :
    ∃ s2, sarf_card s6State 0 0 32 = .ok s2 ∧
      (s2.table.getD 0 defaultMeld).cards = [6, 19, 32] ∧
      (s2.table.getD 0 defaultMeld).owner = 1 ∧
      (s2.players.getD 0 defaultPlayer).hand_mask = card_bit 104 ∧
      (s2.players.getD 0 defaultPlayer).laid_mask = add_card 0 32 ∧
      (s2.players.getD 0 defaultPlayer).laid_points = 7 := by
  obtain ⟨s2, hok, hcards, hkind, howner, hjok, hhand2, hlaid, hpts⟩ :=
    C7_sarf_joker_swap s6State 0 0 32 { num_players := 2 } rfl (by decide) rfl rfl
      (by decide) (by decide) rfl (by decide) rfl (by decide) (by decide) (by decide)
      (by decide) (by decide) (by decide) (by decide)
  refine ⟨s2, hok, ?_, ?_, ?_, ?_, ?_⟩
  · rw [hcards]
    decide
  · rw [howner]
    rfl
  · rw [hhand2]
    decide
  · rw [hlaid]
    decide
  · rw [hpts]
    decide

end Konkan
